import Mathlib

/-!
Verification of the Resource Access & Lifecycle Engine of the
google-drive-clone backend (Express routes over a Supabase relational store).

The relational state is embedded shallowly: each table is a list of rows,
UUIDs and timestamps are modelled as `Nat` identifiers, and each route
handler is a pure function from the incoming request and the current state
to an HTTP-level outcome and the next state.  Supabase client calls are
translated statement by statement:

* `.eq(col, v)` filters become boolean row predicates;
* `.update(patch)` becomes a map over the table that patches exactly the
  matching rows; the schema trigger `update_updated_at_column` (which sets
  `updated_at = NOW()` on every UPDATE of `files`/`folders`) is applied to
  every patched row;
* `.single()` becomes `single?`, which yields a row only when exactly one
  row matched (PostgREST's "JSON object requested" error otherwise);
* input/output sanitizers from `src/utils/security.ts` (`sanitizeFileName`,
  `sanitizeInput`, `sanitizeOutput`, `sanitizeQueryParam`) are delegated
  string transformations with no bearing on the relational logic, so they
  are passed in as function parameters; identifiers in route paths are
  `Nat` keys (every schema in the repository declares `files.id` and
  `folders.id` as SERIAL integers), whose request-string form is their
  decimal representation `toString id`; the `isValidUUID(:id)` guards of
  the rename and download routes are modelled concretely (`isValidUUID`
  below: validator.isUUID's dashed 8-4-4-4-12 hexadecimal shape), which no
  decimal integer id ever passes, so those routes answer 400 on every
  existing resource.
-/

/-- Permission level stored in `file_permissions.permission` and
`folder_permissions.permission`; the schema CHECK constraint restricts the
column to exactly these three values. -/
inductive PermLevel where
  | view
  | edit
  | owner
deriving DecidableEq, Repr

/-- Numeric ranking map from `src/middleware/permissions.ts`
(`const permissionLevels = { view: 1, edit: 2, owner: 3 }`). -/
def permissionLevels : PermLevel → Nat
  | .view => 1
  | .edit => 2
  | .owner => 3

/-- Row of the `files` table (supabase-schema.sql). -/
structure FileRow where
  id : Nat
  name : String
  size : Nat
  format : String
  path : String
  storage_path : String
  owner_id : Nat
  folder_id : Option Nat
  share_token : Option String
  is_public : Bool
  deleted_at : Option Nat
  created_at : Nat
  updated_at : Nat
deriving DecidableEq, Repr

/-- Row of the `folders` table (supabase-schema.sql). -/
structure FolderRow where
  id : Nat
  name : String
  owner_id : Nat
  parent_id : Option Nat
  deleted_at : Option Nat
  created_at : Nat
  updated_at : Nat
deriving DecidableEq, Repr

/-- Row of the `file_permissions` table; `UNIQUE(file_id, user_id)`. -/
structure FilePermRow where
  file_id : Nat
  user_id : Nat
  permission : PermLevel
deriving DecidableEq, Repr

/-- Row of the `folder_permissions` table; `UNIQUE(folder_id, user_id)`. -/
structure FolderPermRow where
  folder_id : Nat
  user_id : Nat
  permission : PermLevel
deriving DecidableEq, Repr

/-- The relational state the engine manipulates. -/
structure DB where
  files : List FileRow
  folders : List FolderRow
  file_permissions : List FilePermRow
  folder_permissions : List FolderPermRow
deriving DecidableEq, Repr

/-- Semantics of the supabase `.single()` modifier: a row is produced only
when exactly one row matched, otherwise the client reports an error and the
destructured `data` is null. -/
def single? {α : Type} : List α → Option α
  | [a] => some a
  | _ => none

/-- Hexadecimal digit test used by the UUID shape check. -/
def isHexChar (c : Char) : Bool :=
  ('0' ≤ c && c ≤ '9') || ('a' ≤ c && c ≤ 'f') || ('A' ≤ c && c ≤ 'F')

/-- `isValidUUID` of security.ts delegates to validator.isUUID, which
accepts exactly the dashed 8-4-4-4-12 hexadecimal shape (case
insensitive).  A SERIAL integer id's decimal string never matches: it has
the wrong length and no dashes. -/
def isValidUUID (s : String) : Bool :=
  let cs := s.toList
  cs.length == 36 &&
  (List.range 36).all (fun i =>
    if i == 8 || i == 13 || i == 18 || i == 23 then cs.getD i ' ' == '-'
    else isHexChar (cs.getD i ' '))

/-- Outcome of the permission middleware: call `next()`, or answer 403 with
one of its two bodies. -/
inductive PermCheck where
  | allow
  | accessDenied
  | insufficientPermission
deriving DecidableEq, Repr

/-- HTTP-level outcome of a route handler. -/
inductive Outcome where
  | success
  | accessDenied
  | insufficientPermission
  | invalidArg
  | notFound
  | serverError
deriving DecidableEq, Repr

/-- Grant lookup half of `checkFilePermission` (permissions.ts lines 22-39):
select the caller's `file_permissions` row for the file; no row means 403
"Access denied"; a row below the required level means 403 "Insufficient
permissions". -/
def filePermLookup (db : DB) (required : PermLevel) (userId fileId : Nat) : PermCheck :=
  match single? (db.file_permissions.filter
      (fun p => p.file_id == fileId && p.user_id == userId)) with
  | none => .accessDenied
  | some p =>
    if permissionLevels p.permission < permissionLevels required then
      .insufficientPermission
    else
      .allow

/-- `checkFilePermission` middleware (permissions.ts lines 5-44): load the
file's owner; the owner is allowed unconditionally (`file?.owner_id ===
userId`, with the optional chain falling through to the grant lookup when
the row is absent); otherwise consult the explicit grant. -/
def checkFilePermission (db : DB) (required : PermLevel) (userId fileId : Nat) : PermCheck :=
  match single? (db.files.filter (fun f => f.id == fileId)) with
  | some f =>
    if f.owner_id == userId then .allow
    else filePermLookup db required userId fileId
  | none => filePermLookup db required userId fileId

/-- Grant lookup half of `checkFolderPermission` (permissions.ts lines 63-78). -/
def folderPermLookup (db : DB) (required : PermLevel) (userId folderId : Nat) : PermCheck :=
  match single? (db.folder_permissions.filter
      (fun p => p.folder_id == folderId && p.user_id == userId)) with
  | none => .accessDenied
  | some p =>
    if permissionLevels p.permission < permissionLevels required then
      .insufficientPermission
    else
      .allow

/-- `checkFolderPermission` middleware (permissions.ts lines 46-85). -/
def checkFolderPermission (db : DB) (required : PermLevel) (userId folderId : Nat) : PermCheck :=
  match single? (db.folders.filter (fun f => f.id == folderId)) with
  | some f =>
    if f.owner_id == userId then .allow
    else folderPermLookup db required userId folderId
  | none => folderPermLookup db required userId folderId

/-- Supabase `UPDATE ... WHERE pred` on the `files` table: patch exactly the
matching rows in place and also return them (the `.select()` payload). -/
def updateFiles (db : DB) (pred : FileRow → Bool) (patch : FileRow → FileRow) :
    List FileRow × DB :=
  ((db.files.filter pred).map patch,
   { db with files := db.files.map (fun f => if pred f then patch f else f) })

/-- Supabase `UPDATE ... WHERE pred` on the `folders` table. -/
def updateFolders (db : DB) (pred : FolderRow → Bool) (patch : FolderRow → FolderRow) :
    List FolderRow × DB :=
  ((db.folders.filter pred).map patch,
   { db with folders := db.folders.map (fun f => if pred f then patch f else f) })

/-- Middleware dispatch: run the handler body only when the permission
check calls `next()`; otherwise answer the middleware's 403. -/
def withFileCheck (db : DB) (required : PermLevel) (caller fileId : Nat)
    (body : Outcome × DB) : Outcome × DB :=
  match checkFilePermission db required caller fileId with
  | .allow => body
  | .accessDenied => (.accessDenied, db)
  | .insufficientPermission => (.insufficientPermission, db)

/-- Middleware dispatch for folder routes. -/
def withFolderCheck (db : DB) (required : PermLevel) (caller folderId : Nat)
    (body : Outcome × DB) : Outcome × DB :=
  match checkFolderPermission db required caller folderId with
  | .allow => body
  | .accessDenied => (.accessDenied, db)
  | .insufficientPermission => (.insufficientPermission, db)

/-- The `UPDATE ... .select().single()` pattern shared by the file routes:
apply the update, answer `ok` when exactly one row matched and `fail`
otherwise. -/
def updateOneFile (db : DB) (pred : FileRow → Bool) (patch : FileRow → FileRow)
    (ok fail : Outcome) : Outcome × DB :=
  let md := updateFiles db pred patch
  match single? md.1 with
  | some _ => (ok, md.2)
  | none => (fail, md.2)

/-- The `UPDATE ... .select().single()` pattern shared by the folder routes. -/
def updateOneFolder (db : DB) (pred : FolderRow → Bool) (patch : FolderRow → FolderRow)
    (ok fail : Outcome) : Outcome × DB :=
  let md := updateFolders db pred patch
  match single? md.1 with
  | some _ => (ok, md.2)
  | none => (fail, md.2)

/-- `DELETE /api/files/:id` (files.ts lines 157-179): owner-level middleware,
then soft delete by setting `deleted_at` on the row matching
`id = :id AND owner_id = caller AND deleted_at IS NULL`; the schema trigger
also touches `updated_at`.  Zero matched rows surface as 404. -/
def fileSoftDelete (db : DB) (caller fileId now : Nat) : Outcome × DB :=
  withFileCheck db .owner caller fileId
    (updateOneFile db
      (fun f => f.id == fileId && f.owner_id == caller && f.deleted_at == none)
      (fun f => { f with deleted_at := some now, updated_at := now })
      .success .notFound)

/-- `POST /api/files/:id/restore` (files.ts lines 261-283): no permission
middleware (authentication only); clear `deleted_at` on the row matching
`id = :id AND owner_id = caller AND deleted_at IS NOT NULL`.  Zero matched
rows surface as 404. -/
def fileRestore (db : DB) (caller fileId now : Nat) : Outcome × DB :=
  updateOneFile db
    (fun f => f.id == fileId && f.owner_id == caller && f.deleted_at.isSome)
    (fun f => { f with deleted_at := none, updated_at := now })
    .success .notFound

/-- `PUT /api/files/:id` rename (files.ts lines 181-220): edit-level
middleware; the handler then sanitizes the id string (the decimal form of
the SERIAL key) and rejects it with 400 unless it has UUID shape
(files.ts line 189) — which no integer id has — then rejects an empty
sanitized name with 400, then updates `name` on the row matching
`id = :id AND owner_id = caller`.  When the update matches no row the
single-row select reports a query error and the route answers 500 (its
not-found branch is unreachable); when it matches, 200. -/
def fileRename (sanQ sanitizeFileName : String → String) (db : DB)
    (caller fileId : Nat) (newName : String) (now : Nat) : Outcome × DB :=
  withFileCheck db .edit caller fileId
    (if isValidUUID (sanQ (toString fileId)) = false then (.invalidArg, db)
     else if (sanitizeFileName newName).length == 0 then (.invalidArg, db)
     else
      updateOneFile db
        (fun f => f.id == fileId && f.owner_id == caller)
        (fun f => { f with name := sanitizeFileName newName, updated_at := now })
        .success .serverError)

/-- `DELETE /api/files/:id/permanent` (files.ts lines 285-320): fetch the
trashed row scoped to `owner_id = caller`; 404 when absent; otherwise remove
the backing object from storage, then delete the row
(`WHERE id = :id AND owner_id = caller`). -/
def filePurge (db : DB) (storage : List String) (caller fileId : Nat) :
    Outcome × DB × List String :=
  match single? (db.files.filter
      (fun f => f.id == fileId && f.owner_id == caller && f.deleted_at.isSome)) with
  | none => (.notFound, db, storage)
  | some f =>
    let storage' := storage.filter (fun p => p ≠ f.storage_path)
    let db' := { db with
      files := db.files.filter (fun g => !(g.id == fileId && g.owner_id == caller)) }
    (.success, db', storage')

/-- `POST /api/files/:id/share` (files.ts lines 322-355): owner-level
middleware, then persist the freshly generated token and the public flag on
the row matching `id = :id AND owner_id = caller AND deleted_at IS NULL`;
404 when no row matched. -/
def fileShareIssue (db : DB) (caller fileId : Nat) (token : String) (now : Nat) :
    Outcome × DB :=
  withFileCheck db .owner caller fileId
    (updateOneFile db
      (fun f => f.id == fileId && f.owner_id == caller && f.deleted_at == none)
      (fun f => { f with share_token := some token, is_public := true, updated_at := now })
      .success .notFound)

/-- `DELETE /api/files/:id/share` revoke (files.ts lines 357-381):
owner-level middleware, then clear `share_token` and `is_public` in one
update on the row matching `id = :id AND owner_id = caller`. -/
def fileShareRevoke (db : DB) (caller fileId now : Nat) : Outcome × DB :=
  withFileCheck db .owner caller fileId
    (updateOneFile db
      (fun f => f.id == fileId && f.owner_id == caller)
      (fun f => { f with share_token := none, is_public := false, updated_at := now })
      .success .notFound)

/-- Public-safe projection answered by `GET /api/files/shared/:token`
(files.ts lines 405-412); note that the handler copies `file.path` into the
response verbatim. -/
structure SharedFileResponse where
  id : Nat
  name : String
  size : Nat
  format : String
  path : String
  created_at : Nat
deriving DecidableEq, Repr

/-- `GET /api/files/shared/:token` (files.ts lines 383-416): sanitize the
token, reject non-UUID shapes with 400, then select the single row matching
`share_token = token AND is_public = TRUE AND deleted_at IS NULL`; 404 when
absent, otherwise answer the projection
`id, name, size, format, path, created_at` (name and format sanitized for
output, `path` passed through). -/
def sharedLookup (sanQ : String → String) (isUuid : String → Bool)
    (sanOut : String → String) (db : DB) (token : String) :
    Outcome × Option SharedFileResponse :=
  let t := sanQ token
  if isUuid t = false then (.invalidArg, none)
  else
    match single? (db.files.filter
        (fun f => f.share_token == some t && f.is_public && f.deleted_at == none)) with
    | none => (.notFound, none)
    | some f =>
      (.success, some { id := f.id, name := sanOut f.name, size := f.size,
                        format := sanOut f.format, path := f.path,
                        created_at := f.created_at })

/-- `GET /api/files/:id/download` (files.ts lines 534-576): view-level
middleware; the handler then rejects the sanitized id string with 400
unless it has UUID shape (files.ts line 541) — never true of a SERIAL
integer id, so the route answers 400 on every existing file — then selects
the non-trashed row by id (no owner filter), validates the storage path,
and mints a signed URL for it.  The payload is modelled as the storage
path handed to the Object Store together with the sanitized file name. -/
def fileDownload (sanQ : String → String) (validatePath : String → Bool)
    (sanOut : String → String) (db : DB) (caller fileId : Nat) :
    Outcome × Option (String × String) :=
  match checkFilePermission db .view caller fileId with
  | .accessDenied => (.accessDenied, none)
  | .insufficientPermission => (.insufficientPermission, none)
  | .allow =>
    if isValidUUID (sanQ (toString fileId)) = false then (.invalidArg, none)
    else
      match single? (db.files.filter (fun f => f.id == fileId && f.deleted_at == none)) with
      | none => (.notFound, none)
      | some f =>
        if validatePath f.storage_path then (.success, some (f.storage_path, sanOut f.name))
        else (.invalidArg, none)

/-- `DELETE /api/folders/:id` soft delete (folders.ts lines 80-102):
owner-level middleware, then set `deleted_at` on the row matching
`id = :id AND owner_id = caller AND deleted_at IS NULL`; 404 otherwise. -/
def folderSoftDelete (db : DB) (caller folderId now : Nat) : Outcome × DB :=
  withFolderCheck db .owner caller folderId
    (updateOneFolder db
      (fun f => f.id == folderId && f.owner_id == caller && f.deleted_at == none)
      (fun f => { f with deleted_at := some now, updated_at := now })
      .success .notFound)

/-- `POST /api/folders/:id/restore` (folders.ts lines 186-208): no
permission middleware; clear `deleted_at` on the row matching
`id = :id AND owner_id = caller AND deleted_at IS NOT NULL`. -/
def folderRestore (db : DB) (caller folderId now : Nat) : Outcome × DB :=
  updateOneFolder db
    (fun f => f.id == folderId && f.owner_id == caller && f.deleted_at.isSome)
    (fun f => { f with deleted_at := none, updated_at := now })
    .success .notFound

/-- `PUT /api/folders/:id` rename (folders.ts lines 104-146): edit-level
middleware; the handler rejects the sanitized id string with 400 unless it
has UUID shape (folders.ts line 112) — never true of a SERIAL integer
id — then rejects an empty sanitized name with 400, then updates `name` on
the row matching `id = :id AND owner_id = caller`; zero matched rows
surface through the single-row select error as 500. -/
def folderRename (sanQ sanitizeInput : String → String) (db : DB)
    (caller folderId : Nat) (newName : String) (now : Nat) : Outcome × DB :=
  withFolderCheck db .edit caller folderId
    (if isValidUUID (sanQ (toString folderId)) = false then (.invalidArg, db)
     else if (sanitizeInput newName).length == 0 then (.invalidArg, db)
     else
      updateOneFolder db
        (fun f => f.id == folderId && f.owner_id == caller)
        (fun f => { f with name := sanitizeInput newName, updated_at := now })
        .success .serverError)

/-- Failure environment of one upload request: which of the three backing
writes of `POST /api/files/upload` succeed. -/
structure UploadEnv where
  storeOk : Bool
  insertOk : Bool
  grantOk : Bool
deriving DecidableEq, Repr

/-- Upload request payload after multer and validation middleware. -/
structure UploadReq where
  origName : String
  size : Nat
  mimetype : String
  folderId : Option Nat
deriving DecidableEq, Repr

/-- `POST /api/files/upload` (files.ts lines 39-101): (1) write the bytes to
the Object Store under the fresh path `userId/now_sanitizedName`; (2) insert
the metadata row (path = public URL of the storage path); if (2) fails,
remove the object written in (1) and answer 500; (3) best-effort insert of
the redundant owner grant, whose failure is ignored; answer 200. -/
def fileUpload (sanitizeFileName : String → String) (mkPublicUrl : String → String)
    (env : UploadEnv) (db : DB) (storage : List String)
    (caller now newId : Nat) (r : UploadReq) : Outcome × DB × List String :=
  let fileName := toString caller ++ "/" ++ toString now ++ "_" ++ sanitizeFileName r.origName
  if env.storeOk = false then (.serverError, db, storage)
  else
    let storage1 := storage ++ [fileName]
    if env.insertOk = false then
      (.serverError, db, storage1.filter (fun p => p ≠ fileName))
    else
      let row : FileRow :=
        { id := newId, name := r.origName, size := r.size, format := r.mimetype,
          path := mkPublicUrl fileName, storage_path := fileName,
          owner_id := caller, folder_id := r.folderId, share_token := none,
          is_public := false, deleted_at := none, created_at := now, updated_at := now }
      let db1 := { db with files := db.files ++ [row] }
      let db2 :=
        if env.grantOk then
          { db1 with file_permissions := db1.file_permissions ++
              [{ file_id := newId, user_id := caller, permission := .owner }] }
        else db1
      (.success, db2, storage1)

/-- Rows produced by the SQL function `search_files_paginated`
(supabase-schema.sql lines 247-282).  `rank` is the `ts_rank` REAL value;
since only its ordering is observable it is modelled over an arbitrary
linearly ordered type. -/
structure FileSearchRow (R : Type) where
  id : Nat
  name : String
  size : Nat
  format : String
  path : String
  folder_id : Option Nat
  created_at : Nat
  rank : R
deriving DecidableEq

/-- Rows produced by the SQL function `search_folders_paginated`
(supabase-schema.sql lines 284-312). -/
structure FolderSearchRow (R : Type) where
  id : Nat
  name : String
  parent_id : Option Nat
  created_at : Nat
  rank : R
deriving DecidableEq

/-- Ordering used by `ORDER BY rank DESC, created_at DESC`: row `a` may be
listed before row `b`. -/
def rankOrd {R : Type} [LinearOrder R] (ra : R) (ca : Nat) (rb : R) (cb : Nat) : Prop :=
  rb < ra ∨ (ra = rb ∧ cb ≤ ca)

/-- The `ORDER BY` relation on file search rows. -/
def fileOrd {R : Type} [LinearOrder R] (a b : FileSearchRow R) : Prop :=
  rankOrd a.rank a.created_at b.rank b.created_at

/-- The `ORDER BY` relation on folder search rows. -/
def folderOrd {R : Type} [LinearOrder R] (a b : FolderSearchRow R) : Prop :=
  rankOrd a.rank a.created_at b.rank b.created_at

instance {R : Type} [LinearOrder R] : DecidableRel (fileOrd (R := R)) :=
  fun a b => by unfold fileOrd rankOrd; infer_instance

instance {R : Type} [LinearOrder R] : DecidableRel (folderOrd (R := R)) :=
  fun a b => by unfold folderOrd rankOrd; infer_instance

instance {R : Type} [LinearOrder R] : IsTotal (FileSearchRow R) fileOrd :=
  ⟨by
    intro a b
    unfold fileOrd rankOrd
    rcases lt_trichotomy a.rank b.rank with h | h | h
    · exact Or.inr (Or.inl h)
    · rcases le_total b.created_at a.created_at with hc | hc
      · exact Or.inl (Or.inr ⟨h, hc⟩)
      · exact Or.inr (Or.inr ⟨h.symm, hc⟩)
    · exact Or.inl (Or.inl h)⟩

instance {R : Type} [LinearOrder R] : IsTrans (FileSearchRow R) fileOrd :=
  ⟨by
    intro a b c hab hbc
    unfold fileOrd rankOrd at hab hbc ⊢
    rcases hab with h | ⟨he, hc⟩ <;> rcases hbc with h2 | ⟨he2, hc2⟩
    · exact Or.inl (lt_trans h2 h)
    · exact Or.inl (he2 ▸ h)
    · exact Or.inl (lt_of_lt_of_le h2 (le_of_eq he.symm))
    · exact Or.inr ⟨he.trans he2, le_trans hc2 hc⟩⟩

instance {R : Type} [LinearOrder R] : IsTotal (FolderSearchRow R) folderOrd :=
  ⟨by
    intro a b
    unfold folderOrd rankOrd
    rcases lt_trichotomy a.rank b.rank with h | h | h
    · exact Or.inr (Or.inl h)
    · rcases le_total b.created_at a.created_at with hc | hc
      · exact Or.inl (Or.inr ⟨h, hc⟩)
      · exact Or.inr (Or.inr ⟨h.symm, hc⟩)
    · exact Or.inl (Or.inl h)⟩

instance {R : Type} [LinearOrder R] : IsTrans (FolderSearchRow R) folderOrd :=
  ⟨by
    intro a b c hab hbc
    unfold folderOrd rankOrd at hab hbc ⊢
    rcases hab with h | ⟨he, hc⟩ <;> rcases hbc with h2 | ⟨he2, hc2⟩
    · exact Or.inl (lt_trans h2 h)
    · exact Or.inl (he2 ▸ h)
    · exact Or.inl (lt_of_lt_of_le h2 (le_of_eq he.symm))
    · exact Or.inr ⟨he.trans he2, le_trans hc2 hc⟩⟩

/-- LEFT JOIN of `files` with `file_permissions` on
`f.id = fp.file_id AND fp.user_id = user_id`, as in the `user_files` CTE of
`search_files_paginated`: a file with no matching grant contributes one row
with a null right side; otherwise one row per matching grant. -/
def fileJoinRows (db : DB) (uid : Nat) : List (FileRow × Option FilePermRow) :=
  db.files.flatMap (fun f =>
    match db.file_permissions.filter (fun p => p.file_id == f.id && p.user_id == uid) with
    | [] => [(f, none)]
    | ps => ps.map (fun p => (f, some p)))

/-- The `user_files` CTE: `SELECT DISTINCT f.id` from the left join filtered
by `deleted_at IS NULL AND (owner_id = user_id OR fp.permission IS NOT NULL)`. -/
def userFiles (db : DB) (uid : Nat) : List Nat :=
  (((fileJoinRows db uid).filter
      (fun r => r.1.deleted_at == none && (r.1.owner_id == uid || r.2.isSome))).map
    (fun r => r.1.id)).dedup

/-- Projection of a `files` row into a search result, with its `ts_rank`. -/
def projectFile {R : Type} (tsRank : String → String → R) (q : String)
    (f : FileRow) : FileSearchRow R :=
  { id := f.id, name := f.name, size := f.size, format := f.format,
    path := f.path, folder_id := f.folder_id, created_at := f.created_at,
    rank := tsRank q f.name }

/-- Body of `search_files_paginated` before `LIMIT/OFFSET`, under the
parameter reading of its unqualified `user_id` (the semantics the function
would have with `variable_conflict = use_variable`): files whose id is in
the `user_files` CTE and whose name matches the full-text query, ordered by
`rank DESC, created_at DESC`.  `tsMatch q name` models
`to_tsvector(name) @@ plainto_tsquery(q)` and `tsRank` models `ts_rank`.
An actual call never reaches this body — see `searchFilesPaginatedCall`. -/
def searchFilesRanked {R : Type} [LinearOrder R]
    (tsMatch : String → String → Bool) (tsRank : String → String → R)
    (db : DB) (q : String) (uid : Nat) : List (FileSearchRow R) :=
  ((db.files.filter (fun f => (userFiles db uid).contains f.id && tsMatch q f.name)).map
    (projectFile tsRank q)).insertionSort fileOrd

/-- `search_files_paginated(search_query, user_id, page_limit, page_offset)`
under the parameter reading of `user_id` (unreachable in deployment — see
`searchFilesPaginatedCall`). -/
def searchFilesPaginated {R : Type} [LinearOrder R]
    (tsMatch : String → String → Bool) (tsRank : String → String → R)
    (db : DB) (q : String) (uid lim off : Nat) : List (FileSearchRow R) :=
  ((searchFilesRanked tsMatch tsRank db q uid).drop off).take lim

/-- LEFT JOIN of `folders` with `folder_permissions` on
`fo.id = fop.folder_id` (the join condition of `search_folders_paginated`
does not constrain the grantee; that filter sits in the WHERE clause). -/
def folderJoinRows (db : DB) : List (FolderRow × Option FolderPermRow) :=
  db.folders.flatMap (fun fo =>
    match db.folder_permissions.filter (fun p => p.folder_id == fo.id) with
    | [] => [(fo, none)]
    | ps => ps.map (fun p => (fo, some p)))

/-- Projection of a `folders` row into a search result. -/
def projectFolder {R : Type} (tsRank : String → String → R) (q : String)
    (fo : FolderRow) : FolderSearchRow R :=
  { id := fo.id, name := fo.name, parent_id := fo.parent_id,
    created_at := fo.created_at, rank := tsRank q fo.name }

/-- WHERE clause of `search_folders_paginated` on one joined row:
`deleted_at IS NULL AND (owner_id = user_id OR (fop.user_id = user_id AND
fop.permission IN ('view','edit','owner'))) AND name matches`. -/
def folderSearchPred (tsMatch : String → String → Bool) (q : String) (uid : Nat)
    (r : FolderRow × Option FolderPermRow) : Bool :=
  r.1.deleted_at == none &&
  (r.1.owner_id == uid ||
    (match r.2 with
     | some p => p.user_id == uid &&
         (p.permission == .view || p.permission == .edit || p.permission == .owner)
     | none => false)) &&
  tsMatch q r.1.name

/-- Body of `search_folders_paginated` before `LIMIT/OFFSET` (no DISTINCT:
the SQL emits one output row per surviving joined row), under the parameter
reading of its unqualified `user_id`.  An actual call never reaches this
body — see `searchFoldersPaginatedCall`. -/
def searchFoldersRanked {R : Type} [LinearOrder R]
    (tsMatch : String → String → Bool) (tsRank : String → String → R)
    (db : DB) (q : String) (uid : Nat) : List (FolderSearchRow R) :=
  (((folderJoinRows db).filter (folderSearchPred tsMatch q uid)).map
    (fun r => projectFolder tsRank q r.1)).insertionSort folderOrd

/-- `search_folders_paginated(search_query, user_id, page_limit, page_offset)`
under the parameter reading of `user_id` (unreachable in deployment — see
`searchFoldersPaginatedCall`). -/
def searchFoldersPaginated {R : Type} [LinearOrder R]
    (tsMatch : String → String → Bool) (tsRank : String → String → R)
    (db : DB) (q : String) (uid lim off : Nat) : List (FolderSearchRow R) :=
  ((searchFoldersRanked tsMatch tsRank db q uid).drop off).take lim

/-- One actual call to `search_files_paginated` as PostgreSQL executes it
(supabase-schema.sql lines 247-282): the function is `LANGUAGE plpgsql`
with a parameter named `user_id`, and its statement references `user_id`
unqualified (`fp.user_id = user_id`, `f.owner_id = user_id`) where the
joined `file_permissions` table also exposes a `user_id` column; under
plpgsql's default `variable_conflict = error` every such reference is
ambiguous, so the call raises `column reference "user_id" is ambiguous`
instead of running the query and returns no rows. -/
def searchFilesPaginatedCall {R : Type} [LinearOrder R]
    (tsMatch : String → String → Bool) (tsRank : String → String → R)
    (db : DB) (q : String) (uid lim off : Nat) :
    Except String (List (FileSearchRow R)) :=
  Except.error "column reference user_id is ambiguous"

/-- One actual call to `search_folders_paginated` (supabase-schema.sql
lines 284-312): its unqualified `user_id` (`fo.owner_id = user_id`,
`fop.user_id = user_id`) is likewise ambiguous with
`folder_permissions.user_id`, so every call raises instead of returning
rows. -/
def searchFoldersPaginatedCall {R : Type} [LinearOrder R]
    (tsMatch : String → String → Bool) (tsRank : String → String → R)
    (db : DB) (q : String) (uid lim off : Nat) :
    Except String (List (FolderSearchRow R)) :=
  Except.error "column reference user_id is ambiguous"

/-- File half of the basic search route (search router `GET /`): the rpc
result is destructured as `const { data: files } = await supabase.rpc(...)`
with the error ignored, and the response uses `files || []`. -/
def searchBasicFiles {R : Type} [LinearOrder R]
    (tsMatch : String → String → Bool) (tsRank : String → String → R)
    (db : DB) (q : String) (uid lim off : Nat) : List (FileSearchRow R) :=
  match searchFilesPaginatedCall tsMatch tsRank db q uid lim off with
  | .ok rows => rows
  | .error _ => []

/-- Folder half of the basic search route, `folders || []` likewise. -/
def searchBasicFolders {R : Type} [LinearOrder R]
    (tsMatch : String → String → Bool) (tsRank : String → String → R)
    (db : DB) (q : String) (uid lim off : Nat) : List (FolderSearchRow R) :=
  match searchFoldersPaginatedCall tsMatch tsRank db q uid lim off with
  | .ok rows => rows
  | .error _ => []

/-- Share-token generation at files.ts line 326: `shareToken = uuidv4()`.
The uuid package's v4 draws 16 bytes from a cryptographically secure source
and then forces the version and variant bits:
`rnds[6] = (rnds[6] & 0x0f) | 0x40; rnds[8] = (rnds[8] & 0x3f) | 0x80`,
which is `64 + b % 16` resp. `128 + b % 64` on byte values. -/
def uuidv4Bytes (rnds : Fin 16 → Fin 256) : Fin 16 → Fin 256 :=
  fun i =>
    if i = (6 : Fin 16) then ⟨64 + (rnds 6).val % 16, by omega⟩
    else if i = (8 : Fin 16) then ⟨128 + (rnds 8).val % 64, by omega⟩
    else rnds i

/-- The effective entropy of one generated v4 token: the free low nibble of
byte 6, the free low six bits of byte 8, and the fourteen fully random
bytes. -/
abbrev UuidEntropy : Type :=
  Fin 16 × Fin 64 × ({i : Fin 16 // ¬i = 6 ∧ ¬i = 8} → Fin 256)

/-- Token determined by its entropy: version and variant bits are the fixed
constants, all remaining bits are the random draw. -/
def uuidv4OfEntropy (e : UuidEntropy) : Fin 16 → Fin 256 :=
  fun i =>
    if h6 : i = (6 : Fin 16) then ⟨64 + e.1.val, by have := e.1.isLt; omega⟩
    else if h8 : i = (8 : Fin 16) then ⟨128 + e.2.1.val, by have := e.2.1.isLt; omega⟩
    else e.2.2 ⟨i, ⟨h6, h8⟩⟩

/-- Concrete sample rows used to evaluate theorems on closed inputs. -/
def egFile : FileRow :=
  { id := 10, name := "a.txt", size := 3, format := "text/plain",
    path := "https://store/files/1/5_a.txt", storage_path := "1/5_a.txt",
    owner_id := 1, folder_id := none, share_token := none, is_public := false,
    deleted_at := none, created_at := 3, updated_at := 3 }

/-- Concrete sample folder row. -/
def egFolder : FolderRow :=
  { id := 20, name := "docs", owner_id := 1, parent_id := none,
    deleted_at := none, created_at := 3, updated_at := 3 }

/-- Concrete sample state: user 1 owns the file and the folder, user 2 holds
an `edit` grant on each. -/
def egDB : DB :=
  { files := [egFile], folders := [egFolder],
    file_permissions := [{ file_id := 10, user_id := 2, permission := .edit }],
    folder_permissions := [{ folder_id := 20, user_id := 2, permission := .edit }] }

/-- Concrete sample shared file: file 10 carrying an issued share token. -/
def egFileShared : FileRow :=
  { egFile with share_token := some "t0", is_public := true }

/-- Concrete sample state holding only the shared file. -/
def egDBShared : DB :=
  { files := [egFileShared], folders := [], file_permissions := [],
    folder_permissions := [] }

theorem single?_eq_some {α : Type} {l : List α} {a : α} :
    single? l = some a ↔ l = [a] := by
  cases l with
  | nil => simp [single?]
  | cons x t =>
    cases t with
    | nil => simp [single?]
    | cons y u => simp [single?]

theorem filter_nil_of_filter_nil {α : Type} {p q : α → Bool} {l : List α}
    (h : l.filter p = []) : l.filter (fun a => p a && q a) = [] := by
  rw [List.filter_eq_nil_iff] at h ⊢
  intro a ha
  simp [h a ha]

theorem filter_and_of_filter_eq {α : Type} {p q : α → Bool} {l : List α} {f : α}
    (h : l.filter p = [f]) :
    l.filter (fun a => p a && q a) = if q f then [f] else [] := by
  induction l with
  | nil => simp at h
  | cons a t ih =>
    by_cases hp : p a = true
    · rw [List.filter_cons_of_pos hp] at h
      have ha : a = f := (List.cons_eq_cons.mp h).1
      have ht : t.filter p = [] := (List.cons_eq_cons.mp h).2
      have ht2 : t.filter (fun a => p a && q a) = [] := filter_nil_of_filter_nil ht
      subst ha
      by_cases hq : q a = true
      · rw [List.filter_cons_of_pos (by simp [hp, hq]), ht2, if_pos hq]
      · rw [List.filter_cons_of_neg (by simp [hp, hq]), ht2,
          if_neg (by simpa using hq)]
    · rw [List.filter_cons_of_neg hp] at h
      rw [List.filter_cons_of_neg (by simp [hp]), ih h]

theorem mem_and_pred_of_filter_eq {α : Type} {p : α → Bool} {l : List α} {f : α}
    (h : l.filter p = [f]) : f ∈ l ∧ p f = true := by
  have : f ∈ l.filter p := by rw [h]; exact List.mem_singleton_self f
  exact ⟨(List.mem_filter.mp this).1, (List.mem_filter.mp this).2⟩

theorem eq_of_pred_of_filter_eq {α : Type} {p : α → Bool} {l : List α} {f g : α}
    (h : l.filter p = [f]) (hg : g ∈ l) (hpg : p g = true) : g = f := by
  have : g ∈ l.filter p := List.mem_filter.mpr ⟨hg, hpg⟩
  rw [h] at this
  exact List.mem_singleton.mp this

theorem map_ite_of_filter_nil {α : Type} {p : α → Bool} {l : List α} (u : α → α)
    (h : l.filter p = []) : l.map (fun a => if p a then u a else a) = l := by
  rw [List.filter_eq_nil_iff] at h
  calc l.map (fun a => if p a then u a else a) = l.map id := by
        apply List.map_congr_left
        intro a ha
        simp [h a ha]
    _ = l := List.map_id l

theorem checkFilePermission_of_found {db : DB} {required : PermLevel}
    {uid fileId : Nat} {f : FileRow}
    (hf : db.files.filter (fun g => g.id == fileId) = [f]) :
    checkFilePermission db required uid fileId =
      if f.owner_id == uid then .allow else filePermLookup db required uid fileId := by
  rw [checkFilePermission, single?_eq_some.mpr hf]

theorem checkFolderPermission_of_found {db : DB} {required : PermLevel}
    {uid folderId : Nat} {fo : FolderRow}
    (hfo : db.folders.filter (fun g => g.id == folderId) = [fo]) :
    checkFolderPermission db required uid folderId =
      if fo.owner_id == uid then .allow else folderPermLookup db required uid folderId := by
  rw [checkFolderPermission, single?_eq_some.mpr hfo]

/-- C1.  The permission resolver: for a uniquely identified resource row,
the owner is allowed unconditionally; a non-owner with no grant row for the
exact resource is denied `AccessDenied`; a non-owner with a grant row is
allowed iff the grant's level reaches the required level under
`view(1) < edit(2) < owner(3)` and otherwise denied
`InsufficientPermission` — for files and folders alike. -/
theorem claim1_permission_resolver
    (db : DB) (required : PermLevel) (uid fileId folderId : Nat)
    (f : FileRow) (fo : FolderRow)
    (hf : db.files.filter (fun g => g.id == fileId) = [f])
    (hfo : db.folders.filter (fun g => g.id == folderId) = [fo]) :
    ((f.owner_id = uid → checkFilePermission db required uid fileId = .allow)
      ∧ (f.owner_id ≠ uid →
          (db.file_permissions.filter
              (fun p => p.file_id == fileId && p.user_id == uid) = [] →
            checkFilePermission db required uid fileId = .accessDenied)
          ∧ ∀ p : FilePermRow,
              db.file_permissions.filter
                (fun q => q.file_id == fileId && q.user_id == uid) = [p] →
              checkFilePermission db required uid fileId =
                (if permissionLevels required ≤ permissionLevels p.permission then
                  PermCheck.allow
                 else .insufficientPermission)))
    ∧ ((fo.owner_id = uid → checkFolderPermission db required uid folderId = .allow)
      ∧ (fo.owner_id ≠ uid →
          (db.folder_permissions.filter
              (fun p => p.folder_id == folderId && p.user_id == uid) = [] →
            checkFolderPermission db required uid folderId = .accessDenied)
          ∧ ∀ p : FolderPermRow,
              db.folder_permissions.filter
                (fun q => q.folder_id == folderId && q.user_id == uid) = [p] →
              checkFolderPermission db required uid folderId =
                (if permissionLevels required ≤ permissionLevels p.permission then
                  PermCheck.allow
                 else .insufficientPermission))) := by
  constructor
  · rw [checkFilePermission_of_found hf]
    constructor
    · intro h
      simp [h]
    · intro hne
      rw [if_neg (by simpa using hne)]
      constructor
      · intro hnone
        rw [filePermLookup, hnone]
        rfl
      · intro p hp
        rw [filePermLookup, single?_eq_some.mpr hp]
        show (if permissionLevels p.permission < permissionLevels required then
            PermCheck.insufficientPermission else PermCheck.allow) = _
        by_cases hlt : permissionLevels p.permission < permissionLevels required
        · rw [if_pos hlt, if_neg (by omega)]
        · rw [if_neg hlt, if_pos (by omega)]
  · rw [checkFolderPermission_of_found hfo]
    constructor
    · intro h
      simp [h]
    · intro hne
      rw [if_neg (by simpa using hne)]
      constructor
      · intro hnone
        rw [folderPermLookup, hnone]
        rfl
      · intro p hp
        rw [folderPermLookup, single?_eq_some.mpr hp]
        show (if permissionLevels p.permission < permissionLevels required then
            PermCheck.insufficientPermission else PermCheck.allow) = _
        by_cases hlt : permissionLevels p.permission < permissionLevels required
        · rw [if_pos hlt, if_neg (by omega)]
        · rw [if_neg hlt, if_pos (by omega)]

/-- C1 witness: on the sample state, the resolver allows the owner on the
file and denies a stranger on the folder. -/
theorem claim1_permission_resolver_witness :
    checkFilePermission egDB .owner 1 10 = .allow
    ∧ checkFolderPermission egDB .view 3 20 = .accessDenied := by
  have h := claim1_permission_resolver egDB .owner 1 10 20 egFile egFolder
    (by decide) (by decide)
  have h2 := claim1_permission_resolver egDB .view 3 10 20 egFile egFolder
    (by decide) (by decide)
  exact ⟨h.1.1 (by decide), (h2.2.2 (by decide)).1 (by decide)⟩

theorem filePermLookup_of_grant {db : DB} {required : PermLevel} {uid fileId : Nat}
    {p : FilePermRow}
    (hp : db.file_permissions.filter
        (fun q => q.file_id == fileId && q.user_id == uid) = [p]) :
    filePermLookup db required uid fileId =
      if permissionLevels p.permission < permissionLevels required then
        .insufficientPermission
      else .allow := by
  rw [filePermLookup, single?_eq_some.mpr hp]

theorem folderPermLookup_of_grant {db : DB} {required : PermLevel} {uid folderId : Nat}
    {p : FolderPermRow}
    (hp : db.folder_permissions.filter
        (fun q => q.folder_id == folderId && q.user_id == uid) = [p]) :
    folderPermLookup db required uid folderId =
      if permissionLevels p.permission < permissionLevels required then
        .insufficientPermission
      else .allow := by
  rw [folderPermLookup, single?_eq_some.mpr hp]

theorem noOwnedRow_filter_nil {l : List FileRow} {fid c : Nat}
    (h : ∀ g ∈ l, g.id = fid → g.owner_id ≠ c) (extra : FileRow → Bool) :
    l.filter (fun g => g.id == fid && g.owner_id == c && extra g) = [] := by
  rw [List.filter_eq_nil_iff]
  intro g hg hp
  simp only [Bool.and_eq_true, beq_iff_eq] at hp
  exact h g hg hp.1.1 hp.1.2

theorem noOwnedRow_filter_nil2 {l : List FileRow} {fid c : Nat}
    (h : ∀ g ∈ l, g.id = fid → g.owner_id ≠ c) :
    l.filter (fun g => g.id == fid && g.owner_id == c) = [] := by
  rw [List.filter_eq_nil_iff]
  intro g hg hp
  simp only [Bool.and_eq_true, beq_iff_eq] at hp
  exact h g hg hp.1 hp.2

theorem noOwnedFolder_filter_nil {l : List FolderRow} {fid c : Nat}
    (h : ∀ g ∈ l, g.id = fid → g.owner_id ≠ c) (extra : FolderRow → Bool) :
    l.filter (fun g => g.id == fid && g.owner_id == c && extra g) = [] := by
  rw [List.filter_eq_nil_iff]
  intro g hg hp
  simp only [Bool.and_eq_true, beq_iff_eq] at hp
  exact h g hg hp.1.1 hp.1.2

theorem noOwnedFolder_filter_nil2 {l : List FolderRow} {fid c : Nat}
    (h : ∀ g ∈ l, g.id = fid → g.owner_id ≠ c) :
    l.filter (fun g => g.id == fid && g.owner_id == c) = [] := by
  rw [List.filter_eq_nil_iff]
  intro g hg hp
  simp only [Bool.and_eq_true, beq_iff_eq] at hp
  exact h g hg hp.1 hp.2

theorem updateOneFile_nomatch {db : DB} {pred : FileRow → Bool}
    (patch : FileRow → FileRow) (ok fail : Outcome)
    (hnil : db.files.filter pred = []) :
    updateOneFile db pred patch ok fail = (fail, db) := by
  unfold updateOneFile updateFiles
  rw [hnil, map_ite_of_filter_nil patch hnil]
  rfl

theorem updateOneFile_match {db : DB} {pred : FileRow → Bool} {f : FileRow}
    (patch : FileRow → FileRow) (ok fail : Outcome)
    (hone : db.files.filter pred = [f]) :
    updateOneFile db pred patch ok fail =
      (ok, { db with files := db.files.map (fun g => if pred g then patch g else g) }) := by
  unfold updateOneFile updateFiles
  rw [hone]
  rfl

theorem updateOneFolder_nomatch {db : DB} {pred : FolderRow → Bool}
    (patch : FolderRow → FolderRow) (ok fail : Outcome)
    (hnil : db.folders.filter pred = []) :
    updateOneFolder db pred patch ok fail = (fail, db) := by
  unfold updateOneFolder updateFolders
  rw [hnil, map_ite_of_filter_nil patch hnil]
  rfl

theorem updateOneFolder_match {db : DB} {pred : FolderRow → Bool} {f : FolderRow}
    (patch : FolderRow → FolderRow) (ok fail : Outcome)
    (hone : db.folders.filter pred = [f]) :
    updateOneFolder db pred patch ok fail =
      (ok, { db with folders := db.folders.map (fun g => if pred g then patch g else g) }) := by
  unfold updateOneFolder updateFolders
  rw [hone]
  rfl

theorem withFileCheck_allow {db : DB} {required : PermLevel} {caller fileId : Nat}
    {body : Outcome × DB}
    (hc : checkFilePermission db required caller fileId = .allow) :
    withFileCheck db required caller fileId body = body := by
  unfold withFileCheck
  rw [hc]

theorem withFolderCheck_allow {db : DB} {required : PermLevel} {caller folderId : Nat}
    {body : Outcome × DB}
    (hc : checkFolderPermission db required caller folderId = .allow) :
    withFolderCheck db required caller folderId body = body := by
  unfold withFolderCheck
  rw [hc]

theorem withFileCheck_deny {db : DB} {required : PermLevel} {caller fileId : Nat}
    {body : Outcome × DB} :
    (withFileCheck db required caller fileId body).1 ≠ .success →
      (withFileCheck db required caller fileId body = body ∧ body.1 ≠ .success)
      ∨ (withFileCheck db required caller fileId body).2 = db := by
  unfold withFileCheck
  cases checkFilePermission db required caller fileId with
  | allow => intro h; exact Or.inl ⟨rfl, h⟩
  | accessDenied => intro _; exact Or.inr rfl
  | insufficientPermission => intro _; exact Or.inr rfl

theorem fileSoftDelete_frame {db : DB} {c fid now : Nat}
    (h : ∀ g ∈ db.files, g.id = fid → g.owner_id ≠ c) :
    (fileSoftDelete db c fid now).1 ≠ .success ∧ (fileSoftDelete db c fid now).2 = db := by
  have hnil := noOwnedRow_filter_nil h (fun g => g.deleted_at == none)
  unfold fileSoftDelete withFileCheck
  cases checkFilePermission db .owner c fid with
  | allow =>
    rw [updateOneFile_nomatch _ _ _ hnil]
    exact ⟨by simp, rfl⟩
  | accessDenied => exact ⟨by simp, rfl⟩
  | insufficientPermission => exact ⟨by simp, rfl⟩

theorem fileRestore_frame {db : DB} {c fid now : Nat}
    (h : ∀ g ∈ db.files, g.id = fid → g.owner_id ≠ c) :
    (fileRestore db c fid now).1 ≠ .success ∧ (fileRestore db c fid now).2 = db := by
  have hnil := noOwnedRow_filter_nil h (fun g => g.deleted_at.isSome)
  unfold fileRestore
  rw [updateOneFile_nomatch _ _ _ hnil]
  exact ⟨by simp, rfl⟩

theorem fileRename_frame {sanQ san : String → String} {db : DB} {c fid : Nat}
    {nm : String} {now : Nat}
    (h : ∀ g ∈ db.files, g.id = fid → g.owner_id ≠ c) :
    (fileRename sanQ san db c fid nm now).1 ≠ .success
    ∧ (fileRename sanQ san db c fid nm now).2 = db := by
  have hnil := noOwnedRow_filter_nil2 h
  unfold fileRename withFileCheck
  cases checkFilePermission db .edit c fid with
  | allow =>
    by_cases hg : isValidUUID (sanQ (toString fid)) = false
    · rw [if_pos hg]
      exact ⟨by simp, rfl⟩
    · rw [if_neg hg]
      by_cases hn : ((san nm).length == 0) = true
      · rw [if_pos hn]
        exact ⟨by simp, rfl⟩
      · rw [if_neg hn, updateOneFile_nomatch _ _ _ hnil]
        exact ⟨by simp, rfl⟩
  | accessDenied => exact ⟨by simp, rfl⟩
  | insufficientPermission => exact ⟨by simp, rfl⟩

theorem filePurge_frame {db : DB} {storage : List String} {c fid : Nat}
    (h : ∀ g ∈ db.files, g.id = fid → g.owner_id ≠ c) :
    filePurge db storage c fid = (.notFound, db, storage) := by
  have hnil := noOwnedRow_filter_nil h (fun g => g.deleted_at.isSome)
  unfold filePurge
  rw [hnil]
  rfl

theorem fileShareIssue_frame {db : DB} {c fid : Nat} {token : String} {now : Nat}
    (h : ∀ g ∈ db.files, g.id = fid → g.owner_id ≠ c) :
    (fileShareIssue db c fid token now).1 ≠ .success
    ∧ (fileShareIssue db c fid token now).2 = db := by
  have hnil := noOwnedRow_filter_nil h (fun g => g.deleted_at == none)
  unfold fileShareIssue withFileCheck
  cases checkFilePermission db .owner c fid with
  | allow =>
    rw [updateOneFile_nomatch _ _ _ hnil]
    exact ⟨by simp, rfl⟩
  | accessDenied => exact ⟨by simp, rfl⟩
  | insufficientPermission => exact ⟨by simp, rfl⟩

theorem fileShareRevoke_frame {db : DB} {c fid now : Nat}
    (h : ∀ g ∈ db.files, g.id = fid → g.owner_id ≠ c) :
    (fileShareRevoke db c fid now).1 ≠ .success
    ∧ (fileShareRevoke db c fid now).2 = db := by
  have hnil := noOwnedRow_filter_nil2 h
  unfold fileShareRevoke withFileCheck
  cases checkFilePermission db .owner c fid with
  | allow =>
    rw [updateOneFile_nomatch _ _ _ hnil]
    exact ⟨by simp, rfl⟩
  | accessDenied => exact ⟨by simp, rfl⟩
  | insufficientPermission => exact ⟨by simp, rfl⟩

theorem folderSoftDelete_frame {db : DB} {c fid now : Nat}
    (h : ∀ g ∈ db.folders, g.id = fid → g.owner_id ≠ c) :
    (folderSoftDelete db c fid now).1 ≠ .success
    ∧ (folderSoftDelete db c fid now).2 = db := by
  have hnil := noOwnedFolder_filter_nil h (fun g => g.deleted_at == none)
  unfold folderSoftDelete withFolderCheck
  cases checkFolderPermission db .owner c fid with
  | allow =>
    rw [updateOneFolder_nomatch _ _ _ hnil]
    exact ⟨by simp, rfl⟩
  | accessDenied => exact ⟨by simp, rfl⟩
  | insufficientPermission => exact ⟨by simp, rfl⟩

theorem folderRestore_frame {db : DB} {c fid now : Nat}
    (h : ∀ g ∈ db.folders, g.id = fid → g.owner_id ≠ c) :
    (folderRestore db c fid now).1 ≠ .success
    ∧ (folderRestore db c fid now).2 = db := by
  have hnil := noOwnedFolder_filter_nil h (fun g => g.deleted_at.isSome)
  unfold folderRestore
  rw [updateOneFolder_nomatch _ _ _ hnil]
  exact ⟨by simp, rfl⟩

theorem folderRename_frame {sanQ san : String → String} {db : DB} {c fid : Nat}
    {nm : String} {now : Nat}
    (h : ∀ g ∈ db.folders, g.id = fid → g.owner_id ≠ c) :
    (folderRename sanQ san db c fid nm now).1 ≠ .success
    ∧ (folderRename sanQ san db c fid nm now).2 = db := by
  have hnil := noOwnedFolder_filter_nil2 h
  unfold folderRename withFolderCheck
  cases checkFolderPermission db .edit c fid with
  | allow =>
    by_cases hg : isValidUUID (sanQ (toString fid)) = false
    · rw [if_pos hg]
      exact ⟨by simp, rfl⟩
    · rw [if_neg hg]
      by_cases hn : ((san nm).length == 0) = true
      · rw [if_pos hn]
        exact ⟨by simp, rfl⟩
      · rw [if_neg hn, updateOneFolder_nomatch _ _ _ hnil]
        exact ⟨by simp, rfl⟩
  | accessDenied => exact ⟨by simp, rfl⟩
  | insufficientPermission => exact ⟨by simp, rfl⟩

/-- C2 counterexample: on the sample state, user 2 is a non-owner holding
an `edit` grant on file 10 and folder 20; the edit-level permission checks
let both requests through, yet download and rename all answer 400: the
handlers' `isValidUUID` guard rejects the decimal SERIAL id before any
query runs, so neither the view-required download nor the edit-required
rename succeeds, contradicting the claim; the state is unchanged. -/
theorem claim2_edit_grant_rename_cex :
    checkFilePermission egDB .edit 2 10 = .allow
    ∧ egFile.owner_id ≠ 2
    ∧ (fileDownload (fun s => s) (fun _ => true) (fun s => s) egDB 2 10).1
        = .invalidArg
    ∧ (fileRename (fun s => s) (fun s => s) egDB 2 10 "b.txt" 7).1 = .invalidArg
    ∧ (fileRename (fun s => s) (fun s => s) egDB 2 10 "b.txt" 7).2 = egDB
    ∧ checkFolderPermission egDB .edit 2 20 = .allow
    ∧ (folderRename (fun s => s) (fun s => s) egDB 2 20 "d" 7).1 = .invalidArg
    ∧ (folderRename (fun s => s) (fun s => s) egDB 2 20 "d" 7).2 = egDB := by
  decide

/-- C2 amended.  For every non-owner caller holding an `edit` grant on a
resource: the view- and edit-level authorization checks pass and
owner-required checks are denied with `InsufficientPermission`; but the
operations themselves do not succeed.  The rename routes never succeed for
the grantee and leave the state unchanged: the `isValidUUID` guard rejects
the SERIAL integer id with 400, and even an id passing that gate would be
stopped by the `owner_id = caller` filter on the UPDATE.  Download answers
400 at the same guard (true of every integer id) instead of succeeding. -/
theorem claim2_edit_grant_amended
    (sanQ : String → String) (validatePath : String → Bool)
    (sanOut sanFile sanInp : String → String)
    (db : DB) (u fileId folderId : Nat) (f : FileRow) (fo : FolderRow)
    (p : FilePermRow) (q : FolderPermRow) (nm : String) (now : Nat)
    (hf : db.files.filter (fun g => g.id == fileId) = [f])
    (hofile : f.owner_id ≠ u)
    (hp : db.file_permissions.filter
        (fun r => r.file_id == fileId && r.user_id == u) = [p])
    (hpe : p.permission = .edit)
    (hfo : db.folders.filter (fun g => g.id == folderId) = [fo])
    (hofo : fo.owner_id ≠ u)
    (hq : db.folder_permissions.filter
        (fun r => r.folder_id == folderId && r.user_id == u) = [q])
    (hqe : q.permission = .edit) :
    (∀ req : PermLevel, permissionLevels req ≤ 2 →
        checkFilePermission db req u fileId = .allow
        ∧ checkFolderPermission db req u folderId = .allow)
    ∧ checkFilePermission db .owner u fileId = .insufficientPermission
    ∧ checkFolderPermission db .owner u folderId = .insufficientPermission
    ∧ (isValidUUID (sanQ (toString fileId)) = false →
        fileDownload sanQ validatePath sanOut db u fileId = (.invalidArg, none))
    ∧ (fileRename sanQ sanFile db u fileId nm now).1 ≠ .success
    ∧ (fileRename sanQ sanFile db u fileId nm now).2 = db
    ∧ (folderRename sanQ sanInp db u folderId nm now).1 ≠ .success
    ∧ (folderRename sanQ sanInp db u folderId nm now).2 = db := by
  have hidu : ∀ g ∈ db.files, g.id = fileId → g.owner_id ≠ u := by
    intro g hg hgid
    have hgf : g = f := eq_of_pred_of_filter_eq hf hg (by simp [hgid])
    rw [hgf]
    exact hofile
  have hidfo : ∀ g ∈ db.folders, g.id = folderId → g.owner_id ≠ u := by
    intro g hg hgid
    have hgf : g = fo := eq_of_pred_of_filter_eq hfo hg (by simp [hgid])
    rw [hgf]
    exact hofo
  have hfileAllow : ∀ req : PermLevel, permissionLevels req ≤ 2 →
      checkFilePermission db req u fileId = .allow := by
    intro req hreq
    rw [checkFilePermission_of_found hf, if_neg (by simpa using hofile),
      filePermLookup_of_grant hp, hpe,
      if_neg (by show ¬(2 < permissionLevels req); omega)]
  have hfolderAllow : ∀ req : PermLevel, permissionLevels req ≤ 2 →
      checkFolderPermission db req u folderId = .allow := by
    intro req hreq
    rw [checkFolderPermission_of_found hfo, if_neg (by simpa using hofo),
      folderPermLookup_of_grant hq, hqe,
      if_neg (by show ¬(2 < permissionLevels req); omega)]
  have hview : checkFilePermission db .view u fileId = .allow :=
    hfileAllow .view (by simp [permissionLevels])
  refine ⟨fun req hreq => ⟨hfileAllow req hreq, hfolderAllow req hreq⟩,
    ?_, ?_, ?_, ?_, ?_, ?_, ?_⟩
  · rw [checkFilePermission_of_found hf, if_neg (by simpa using hofile),
      filePermLookup_of_grant hp, hpe, if_pos (by decide)]
  · rw [checkFolderPermission_of_found hfo, if_neg (by simpa using hofo),
      folderPermLookup_of_grant hq, hqe, if_pos (by decide)]
  · intro hgate
    unfold fileDownload
    rw [hview, hgate, if_pos rfl]
  · exact (fileRename_frame hidu).1
  · exact (fileRename_frame hidu).2
  · exact (folderRename_frame hidfo).1
  · exact (folderRename_frame hidfo).2

/-- C2 amended witness: on the sample state, the edit grantee's checks
pass, yet download answers 400 and the rename leaves the state
untouched. -/
theorem claim2_edit_grant_amended_witness :
    fileDownload (fun s => s) (fun _ => true) (fun s => s) egDB 2 10
      = (.invalidArg, none)
    ∧ (fileRename (fun s => s) (fun s => s) egDB 2 10 "b.txt" 7).2 = egDB := by
  have h := claim2_edit_grant_amended (fun s => s) (fun _ => true)
    (fun s => s) (fun s => s) (fun s => s) egDB 2 10 20 egFile egFolder
    ⟨10, 2, .edit⟩ ⟨20, 2, .edit⟩ "b.txt" 7
    (by decide) (by decide) (by decide) (by decide)
    (by decide) (by decide) (by decide) (by decide)
  exact ⟨h.2.2.2.1 (by decide), h.2.2.2.2.2.1⟩

/-- C6.  For the owner of a uniquely identified resource: a soft-delete
request on an already-trashed resource fails `NotFound` and leaves the state
unchanged, and a restore request on an active resource fails `NotFound` and
leaves the state unchanged — for files and folders alike. -/
theorem claim6_wrong_state_notfound
    (db : DB) (caller fileId folderId now : Nat) (f : FileRow) (fo : FolderRow)
    (hf : db.files.filter (fun g => g.id == fileId) = [f])
    (howner : f.owner_id = caller)
    (hfo : db.folders.filter (fun g => g.id == folderId) = [fo])
    (hfoowner : fo.owner_id = caller) :
    (f.deleted_at.isSome → fileSoftDelete db caller fileId now = (.notFound, db))
    ∧ (f.deleted_at = none → fileRestore db caller fileId now = (.notFound, db))
    ∧ (fo.deleted_at.isSome → folderSoftDelete db caller folderId now = (.notFound, db))
    ∧ (fo.deleted_at = none → folderRestore db caller folderId now = (.notFound, db)) := by
  have hallowF : checkFilePermission db .owner caller fileId = .allow := by
    rw [checkFilePermission_of_found hf, if_pos (by simp [howner])]
  have hallowFo : checkFolderPermission db .owner caller folderId = .allow := by
    rw [checkFolderPermission_of_found hfo, if_pos (by simp [hfoowner])]
  refine ⟨?_, ?_, ?_, ?_⟩
  · intro hdel
    have hnil : db.files.filter
        (fun g => g.id == fileId && g.owner_id == caller && g.deleted_at == none) = [] := by
      rw [List.filter_eq_nil_iff]
      intro g hg hpg
      simp only [Bool.and_eq_true, beq_iff_eq] at hpg
      have hgf : g = f := eq_of_pred_of_filter_eq hf hg (by simp [hpg.1.1])
      rw [hgf] at hpg
      rw [hpg.2] at hdel
      simp at hdel
    unfold fileSoftDelete
    rw [withFileCheck_allow hallowF, updateOneFile_nomatch _ _ _ hnil]
  · intro hact
    have hnil : db.files.filter
        (fun g => g.id == fileId && g.owner_id == caller && g.deleted_at.isSome) = [] := by
      rw [List.filter_eq_nil_iff]
      intro g hg hpg
      simp only [Bool.and_eq_true, beq_iff_eq] at hpg
      have hgf : g = f := eq_of_pred_of_filter_eq hf hg (by simp [hpg.1.1])
      rw [hgf] at hpg
      rw [hact] at hpg
      simp at hpg
    unfold fileRestore
    rw [updateOneFile_nomatch _ _ _ hnil]
  · intro hdel
    have hnil : db.folders.filter
        (fun g => g.id == folderId && g.owner_id == caller && g.deleted_at == none) = [] := by
      rw [List.filter_eq_nil_iff]
      intro g hg hpg
      simp only [Bool.and_eq_true, beq_iff_eq] at hpg
      have hgf : g = fo := eq_of_pred_of_filter_eq hfo hg (by simp [hpg.1.1])
      rw [hgf] at hpg
      rw [hpg.2] at hdel
      simp at hdel
    unfold folderSoftDelete
    rw [withFolderCheck_allow hallowFo, updateOneFolder_nomatch _ _ _ hnil]
  · intro hact
    have hnil : db.folders.filter
        (fun g => g.id == folderId && g.owner_id == caller && g.deleted_at.isSome) = [] := by
      rw [List.filter_eq_nil_iff]
      intro g hg hpg
      simp only [Bool.and_eq_true, beq_iff_eq] at hpg
      have hgf : g = fo := eq_of_pred_of_filter_eq hfo hg (by simp [hpg.1.1])
      rw [hgf] at hpg
      rw [hact] at hpg
      simp at hpg
    unfold folderRestore
    rw [updateOneFolder_nomatch _ _ _ hnil]

/-- C6 witness: on the sample state, restoring the active file and the
active folder both answer 404 and change nothing. -/
theorem claim6_wrong_state_notfound_witness :
    fileRestore egDB 1 10 9 = (.notFound, egDB)
    ∧ folderRestore egDB 1 20 9 = (.notFound, egDB) := by
  have h := claim6_wrong_state_notfound egDB 1 10 20 9 egFile egFolder
    (by decide) (by decide) (by decide) (by decide)
  exact ⟨h.2.1 (by decide), h.2.2.2 (by decide)⟩

/-- C5 counterexample: on the sample state (file 10 active, `updated_at = 3`),
soft-deleting at time 5 and restoring at time 9 yields a row whose
`updated_at` is 9, not its pre-delete value 3: the `updated_at` trigger
fires on both updates, so the round trip is not bit-for-bit on every field
other than trashed-at. -/
theorem claim5_roundtrip_cex :
    (fileRestore (fileSoftDelete egDB 1 10 5).2 1 10 9).2.files
      = [{ egFile with updated_at := 9 }]
    ∧ ({ egFile with updated_at := 9 } : FileRow).updated_at ≠ egFile.updated_at := by
  decide

/-- C5 amended.  Soft-delete followed by restore of an active resource
succeeds and restores every field except `updated_at`, which ends equal to
the restore time (the schema trigger touches it on each update); all other
rows and tables are untouched — for files and folders alike. -/
theorem claim5_roundtrip_amended
    (db : DB) (caller fileId folderId t1 t2 : Nat) (f : FileRow) (fo : FolderRow)
    (hf : db.files.filter (fun g => g.id == fileId) = [f])
    (howner : f.owner_id = caller)
    (hactive : f.deleted_at = none)
    (hfo : db.folders.filter (fun g => g.id == folderId) = [fo])
    (hfoowner : fo.owner_id = caller)
    (hfoactive : fo.deleted_at = none) :
    ((fileSoftDelete db caller fileId t1).1 = .success
      ∧ (fileRestore (fileSoftDelete db caller fileId t1).2 caller fileId t2).1 = .success
      ∧ (fileRestore (fileSoftDelete db caller fileId t1).2 caller fileId t2).2
          = { db with files := (db.files.map
              (fun g => if g.id == fileId then { g with updated_at := t2 } else g)) })
    ∧ ((folderSoftDelete db caller folderId t1).1 = .success
      ∧ (folderRestore (folderSoftDelete db caller folderId t1).2 caller folderId t2).1
          = .success
      ∧ (folderRestore (folderSoftDelete db caller folderId t1).2 caller folderId t2).2
          = { db with folders := (db.folders.map
              (fun g => if g.id == folderId then { g with updated_at := t2 } else g)) }) := by
  have hfid : f.id = fileId := by
    simpa using (mem_and_pred_of_filter_eq hf).2
  have hfoid : fo.id = folderId := by
    simpa using (mem_and_pred_of_filter_eq hfo).2
  have hallowF : checkFilePermission db .owner caller fileId = .allow := by
    rw [checkFilePermission_of_found hf, if_pos (by simp [howner])]
  have hallowFo : checkFolderPermission db .owner caller folderId = .allow := by
    rw [checkFolderPermission_of_found hfo, if_pos (by simp [hfoowner])]
  constructor
  · -- files round trip
    have hone12 : db.files.filter (fun g => g.id == fileId && g.owner_id == caller) = [f] := by
      have h2 := filter_and_of_filter_eq (q := fun g => g.owner_id == caller) hf
      rw [h2, if_pos (by simp [howner])]
    have hone1 : db.files.filter
        (fun g => g.id == fileId && g.owner_id == caller && g.deleted_at == none) = [f] := by
      have h2 := filter_and_of_filter_eq (q := fun g => g.deleted_at == none) hone12
      rw [h2, if_pos (by simp [hactive])]
    have hstep1 : fileSoftDelete db caller fileId t1 =
        (.success, { db with files := (db.files.map (fun g =>
          if g.id == fileId && g.owner_id == caller && g.deleted_at == none then
            { g with deleted_at := some t1, updated_at := t1 }
          else g)) }) := by
      unfold fileSoftDelete
      rw [withFileCheck_allow hallowF, updateOneFile_match _ _ _ hone1]
    have hone2 : (db.files.map (fun g =>
          if g.id == fileId && g.owner_id == caller && g.deleted_at == none then
            { g with deleted_at := some t1, updated_at := t1 }
          else g)).filter
          (fun g => g.id == fileId && g.owner_id == caller && g.deleted_at.isSome)
        = [{ f with deleted_at := some t1, updated_at := t1 }] := by
      rw [List.filter_map]
      have hcongr : db.files.filter
          ((fun g : FileRow =>
              g.id == fileId && g.owner_id == caller && g.deleted_at.isSome) ∘
            (fun g : FileRow =>
              if g.id == fileId && g.owner_id == caller && g.deleted_at == none then
                { g with deleted_at := some t1, updated_at := t1 }
              else g))
          = db.files.filter (fun g => g.id == fileId) := by
        apply List.filter_congr
        intro g hg
        by_cases hid : g.id = fileId
        · have hgf : g = f := eq_of_pred_of_filter_eq hf hg (by simp [hid])
          subst hgf
          simp [Function.comp, hid, howner, hactive]
        · have hb : (g.id == fileId) = false := by simp [hid]
          simp [Function.comp, hb]
      rw [hcongr, hf]
      simp [hfid, howner, hactive]
    refine ⟨?_, ?_, ?_⟩
    · rw [hstep1]
    · rw [hstep1]
      unfold fileRestore
      rw [updateOneFile_match _ _ _ hone2]
    · rw [hstep1]
      unfold fileRestore
      rw [updateOneFile_match _ _ _ hone2]
      show ({ db with files := _ } : DB) = _
      congr 1
      rw [List.map_map]
      apply List.map_congr_left
      intro g hg
      by_cases hid : g.id = fileId
      · have hgf : g = f := eq_of_pred_of_filter_eq hf hg (by simp [hid])
        subst hgf
        simp [Function.comp, hfid, howner, hactive]
      · have hb : (g.id == fileId) = false := by simp [hid]
        simp [Function.comp, hb]
  · -- folders round trip
    have hone12 : db.folders.filter
        (fun g => g.id == folderId && g.owner_id == caller) = [fo] := by
      have h2 := filter_and_of_filter_eq (q := fun g => g.owner_id == caller) hfo
      rw [h2, if_pos (by simp [hfoowner])]
    have hone1 : db.folders.filter
        (fun g => g.id == folderId && g.owner_id == caller && g.deleted_at == none) = [fo] := by
      have h2 := filter_and_of_filter_eq (q := fun g => g.deleted_at == none) hone12
      rw [h2, if_pos (by simp [hfoactive])]
    have hstep1 : folderSoftDelete db caller folderId t1 =
        (.success, { db with folders := (db.folders.map (fun g =>
          if g.id == folderId && g.owner_id == caller && g.deleted_at == none then
            { g with deleted_at := some t1, updated_at := t1 }
          else g)) }) := by
      unfold folderSoftDelete
      rw [withFolderCheck_allow hallowFo, updateOneFolder_match _ _ _ hone1]
    have hone2 : (db.folders.map (fun g =>
          if g.id == folderId && g.owner_id == caller && g.deleted_at == none then
            { g with deleted_at := some t1, updated_at := t1 }
          else g)).filter
          (fun g => g.id == folderId && g.owner_id == caller && g.deleted_at.isSome)
        = [{ fo with deleted_at := some t1, updated_at := t1 }] := by
      rw [List.filter_map]
      have hcongr : db.folders.filter
          ((fun g : FolderRow =>
              g.id == folderId && g.owner_id == caller && g.deleted_at.isSome) ∘
            (fun g : FolderRow =>
              if g.id == folderId && g.owner_id == caller && g.deleted_at == none then
                { g with deleted_at := some t1, updated_at := t1 }
              else g))
          = db.folders.filter (fun g => g.id == folderId) := by
        apply List.filter_congr
        intro g hg
        by_cases hid : g.id = folderId
        · have hgf : g = fo := eq_of_pred_of_filter_eq hfo hg (by simp [hid])
          subst hgf
          simp [Function.comp, hid, hfoowner, hfoactive]
        · have hb : (g.id == folderId) = false := by simp [hid]
          simp [Function.comp, hb]
      rw [hcongr, hfo]
      simp [hfoid, hfoowner, hfoactive]
    refine ⟨?_, ?_, ?_⟩
    · rw [hstep1]
    · rw [hstep1]
      unfold folderRestore
      rw [updateOneFolder_match _ _ _ hone2]
    · rw [hstep1]
      unfold folderRestore
      rw [updateOneFolder_match _ _ _ hone2]
      show ({ db with folders := _ } : DB) = _
      congr 1
      rw [List.map_map]
      apply List.map_congr_left
      intro g hg
      by_cases hid : g.id = folderId
      · have hgf : g = fo := eq_of_pred_of_filter_eq hfo hg (by simp [hid])
        subst hgf
        simp [Function.comp, hfoid, hfoowner, hfoactive]
      · have hb : (g.id == folderId) = false := by simp [hid]
        simp [Function.comp, hb]

/-- C5 amended witness: on the sample state, deleting file 10 at time 5 and
restoring at time 9 succeeds and yields exactly the original row with
`updated_at = 9`. -/
theorem claim5_roundtrip_amended_witness :
    (fileSoftDelete egDB 1 10 5).1 = .success
    ∧ (fileRestore (fileSoftDelete egDB 1 10 5).2 1 10 9).2
        = { egDB with files := [{ egFile with updated_at := 9 }] } := by
  have h := claim5_roundtrip_amended egDB 1 10 20 5 9 egFile egFolder
    (by decide) (by decide) (by decide) (by decide) (by decide) (by decide)
  refine ⟨h.1.1, ?_⟩
  rw [h.1.2.2]
  decide

/-- C7.  After the owner revokes sharing on a file (clearing the token and
the public flag in one update), anonymous lookup by any token that
previously pointed only at that file answers `NotFound`, exactly the answer
produced over a state in which the file was never shared. -/
theorem claim7_revoke_lookup
    (sanQ : String → String) (isUuid : String → Bool) (sanOut : String → String)
    (db : DB) (caller fileId now : Nat) (f : FileRow) (t : String)
    (hf : db.files.filter (fun g => g.id == fileId) = [f])
    (howner : f.owner_id = caller)
    (htok : f.share_token = some t)
    (huniq : ∀ g ∈ db.files, g.share_token = some t → g = f)
    (hsan : sanQ t = t)
    (huuid : isUuid t = true) :
    (fileShareRevoke db caller fileId now).1 = .success
    ∧ sharedLookup sanQ isUuid sanOut (fileShareRevoke db caller fileId now).2 t
        = (.notFound, none)
    ∧ sharedLookup sanQ isUuid sanOut (fileShareRevoke db caller fileId now).2 t
        = sharedLookup sanQ isUuid sanOut
            { db with files := (db.files.map (fun g =>
                if g.id == fileId then
                  { g with share_token := none, is_public := false }
                else g)) } t := by
  have hfid : f.id = fileId := by
    simpa using (mem_and_pred_of_filter_eq hf).2
  have hallow : checkFilePermission db .owner caller fileId = .allow := by
    rw [checkFilePermission_of_found hf, if_pos (by simp [howner])]
  have hone : db.files.filter (fun g => g.id == fileId && g.owner_id == caller) = [f] := by
    have h2 := filter_and_of_filter_eq (q := fun g => g.owner_id == caller) hf
    rw [h2, if_pos (by simp [howner])]
  have hstep : fileShareRevoke db caller fileId now =
      (.success, { db with files := (db.files.map (fun g =>
        if g.id == fileId && g.owner_id == caller then
          { g with share_token := none, is_public := false, updated_at := now }
        else g)) }) := by
    unfold fileShareRevoke
    rw [withFileCheck_allow hallow, updateOneFile_match _ _ _ hone]
  refine ⟨by rw [hstep], ?_, ?_⟩
  · rw [hstep]
    simp only [sharedLookup]
    rw [hsan, huuid]
    have hnil : ((db.files.map (fun g =>
        if g.id == fileId && g.owner_id == caller then
          { g with share_token := none, is_public := false, updated_at := now }
        else g)).filter
        (fun g => g.share_token == some t && g.is_public && g.deleted_at == none)) = [] := by
      rw [List.filter_eq_nil_iff]
      intro a ha
      obtain ⟨g, hg, rfl⟩ := List.mem_map.mp ha
      intro hp
      simp only [Bool.and_eq_true, beq_iff_eq] at hp
      by_cases hid : g.id = fileId
      · have hgf : g = f := eq_of_pred_of_filter_eq hf hg (by simp [hid])
        subst hgf
        rw [if_pos (by simp [hid, howner])] at hp
        simp at hp
      · rw [if_neg (by simp [hid])] at hp
        have hgf : g = f := huniq g hg hp.1.1
        rw [hgf] at hid
        exact hid hfid
    rw [if_neg (by simp), hnil]
    rfl
  · rw [hstep]
    simp only [sharedLookup]
    rw [hsan, huuid]
    have hnil1 : ((db.files.map (fun g =>
        if g.id == fileId && g.owner_id == caller then
          { g with share_token := none, is_public := false, updated_at := now }
        else g)).filter
        (fun g => g.share_token == some t && g.is_public && g.deleted_at == none)) = [] := by
      rw [List.filter_eq_nil_iff]
      intro a ha
      obtain ⟨g, hg, rfl⟩ := List.mem_map.mp ha
      intro hp
      simp only [Bool.and_eq_true, beq_iff_eq] at hp
      by_cases hid : g.id = fileId
      · have hgf : g = f := eq_of_pred_of_filter_eq hf hg (by simp [hid])
        subst hgf
        rw [if_pos (by simp [hid, howner])] at hp
        simp at hp
      · rw [if_neg (by simp [hid])] at hp
        have hgf : g = f := huniq g hg hp.1.1
        rw [hgf] at hid
        exact hid hfid
    have hnil2 : ((db.files.map (fun g =>
        if g.id == fileId then
          { g with share_token := none, is_public := false }
        else g)).filter
        (fun g => g.share_token == some t && g.is_public && g.deleted_at == none)) = [] := by
      rw [List.filter_eq_nil_iff]
      intro a ha
      obtain ⟨g, hg, rfl⟩ := List.mem_map.mp ha
      intro hp
      simp only [Bool.and_eq_true, beq_iff_eq] at hp
      by_cases hid : g.id = fileId
      · rw [if_pos (by simp [hid])] at hp
        simp at hp
      · rw [if_neg (by simp [hid])] at hp
        have hgf : g = f := huniq g hg hp.1.1
        rw [hgf] at hid
        exact hid hfid
    rw [if_neg (by simp), if_neg (by simp), hnil1, hnil2]

/-- C7 witness: revoking the sample shared file succeeds and the anonymous
lookup by its former token then answers 404 with no payload. -/
theorem claim7_revoke_lookup_witness :
    (fileShareRevoke egDBShared 1 10 7).1 = .success
    ∧ sharedLookup (fun s => s) (fun _ => true) (fun s => s)
        (fileShareRevoke egDBShared 1 10 7).2 "t0" = (.notFound, none) := by
  have h := claim7_revoke_lookup (fun s => s) (fun _ => true) (fun s => s)
    egDBShared 1 10 7 egFileShared "t0"
    (by decide) (by decide) (by decide) (by decide) (by decide) (by decide)
  exact ⟨h.1, h.2.1⟩

theorem nodup_all_eq {α : Type} {l : List α} {f : α} (hnd : l.Nodup) (hmem : f ∈ l)
    (hall : ∀ x ∈ l, x = f) : l = [f] := by
  cases l with
  | nil => simp at hmem
  | cons x t =>
    have hx : x = f := hall x (List.mem_cons_self x t)
    subst hx
    have ht : t = [] := by
      by_contra hne
      obtain ⟨y, hy⟩ := List.exists_mem_of_ne_nil t hne
      have hyx : y = x := hall y (List.mem_cons_of_mem x hy)
      rw [hyx] at hy
      exact (List.nodup_cons.mp hnd).1 hy
    rw [ht]

theorem filter_eq_singleton_of_unique {α : Type} {p : α → Bool} {l : List α} {f : α}
    (hnd : l.Nodup) (hf : f ∈ l) (hpf : p f = true)
    (hall : ∀ g ∈ l, p g = true → g = f) : l.filter p = [f] := by
  apply nodup_all_eq (hnd.filter p) (List.mem_filter.mpr ⟨hf, hpf⟩)
  intro x hx
  exact hall x (List.mem_filter.mp hx).1 (List.mem_filter.mp hx).2

/-- C3 counterexample: the anonymous lookup's payload carries the `path`
field (the storage-path-derived public URL), so two states whose only
difference is the file's storage path produce different anonymous
responses — the projection is not limited to name, size, format, identifier
and creation time. -/
theorem claim3_shared_projection_cex :
    ((sharedLookup (fun s => s) (fun _ => true) (fun s => s) egDBShared "t0").2).map
        (fun r => r.path) = some "https://store/files/1/5_a.txt"
    ∧ (sharedLookup (fun s => s) (fun _ => true) (fun s => s) egDBShared "t0").2
        ≠ (sharedLookup (fun s => s) (fun _ => true) (fun s => s)
            { egDBShared with files := [{ egFileShared with
                path := "https://store/files/1/9_a.txt",
                storage_path := "1/9_a.txt" }] } "t0").2 := by
  decide

/-- C3 amended.  For a clean UUID-shaped token over a duplicate-free table
respecting the share-token uniqueness constraint: the anonymous lookup
returns a payload iff some file row carries exactly that token, is public
and is not trashed; the payload consists of the row's identifier, sanitized
name, size, sanitized format, creation time — and additionally its `path`
field, copied verbatim, which is derived from the storage path (so rows
differing in storage path produce different payloads). -/
theorem claim3_shared_lookup_amended
    (sanQ : String → String) (isUuid : String → Bool) (sanOut : String → String)
    (db : DB) (t : String) (resp : SharedFileResponse)
    (hsan : sanQ t = t)
    (huuid : isUuid t = true)
    (hnodup : db.files.Nodup)
    (huniq : ∀ g1 ∈ db.files, ∀ g2 ∈ db.files,
      g1.share_token = some t → g2.share_token = some t → g1 = g2) :
    (sharedLookup sanQ isUuid sanOut db t).2 = some resp
      ↔ ∃ f ∈ db.files, f.share_token = some t ∧ f.is_public = true
          ∧ f.deleted_at = none
          ∧ resp = { id := f.id, name := sanOut f.name, size := f.size,
                     format := sanOut f.format, path := f.path,
                     created_at := f.created_at } := by
  simp only [sharedLookup]
  rw [hsan, huuid, if_neg (by simp)]
  cases hs : single? (db.files.filter
      (fun f => f.share_token == some t && f.is_public && f.deleted_at == none)) with
  | none =>
    simp only []
    constructor
    · intro h
      simp at h
    · rintro ⟨f, hfmem, htok, hpub, hdel, hresp⟩
      have hone : db.files.filter
          (fun f => f.share_token == some t && f.is_public && f.deleted_at == none) = [f] := by
        apply filter_eq_singleton_of_unique hnodup hfmem (by simp [htok, hpub, hdel])
        intro g hg hpg
        simp only [Bool.and_eq_true, beq_iff_eq] at hpg
        exact huniq g hg f hfmem hpg.1.1 htok
      rw [hone] at hs
      simp [single?] at hs
  | some f0 =>
    have hone := single?_eq_some.mp hs
    have hmem := (mem_and_pred_of_filter_eq hone).1
    have hpred := (mem_and_pred_of_filter_eq hone).2
    simp only [Bool.and_eq_true, beq_iff_eq] at hpred
    simp only []
    constructor
    · intro h
      exact ⟨f0, hmem, hpred.1.1, hpred.1.2, hpred.2,
        by injection h with h2; rw [← h2]⟩
    · rintro ⟨f, hfmem, htok, hpub, hdel, hresp⟩
      have hff : f = f0 := huniq f hfmem f0 hmem htok hpred.1.1
      rw [hresp, hff]

/-- C3 amended witness: the sample shared file is returned with exactly this
payload, `path` included. -/
theorem claim3_shared_lookup_amended_witness :
    (sharedLookup (fun s => s) (fun _ => true) (fun s => s) egDBShared "t0").2
      = some { id := 10, name := "a.txt", size := 3, format := "text/plain",
               path := "https://store/files/1/5_a.txt", created_at := 3 } := by
  have h := claim3_shared_lookup_amended (fun s => s) (fun _ => true) (fun s => s)
    egDBShared "t0"
    { id := 10, name := "a.txt", size := 3, format := "text/plain",
      path := "https://store/files/1/5_a.txt", created_at := 3 }
    (by decide) (by decide) (by decide) (by decide)
  exact h.mpr ⟨egFileShared, by decide, by decide, by decide, by decide, by decide⟩

/-- C8.  Upload compensation: when the object-store write succeeds under a
fresh path and the metadata insert fails, the route deletes the object it
wrote before surfacing the error, so the storage and the table end exactly
as they started; when the insert succeeds, the upload responds success with
the row persisted and the object kept, regardless of whether the
best-effort owner-grant bookkeeping write succeeds. -/
theorem claim8_upload_compensation
    (sanFile mkUrl : String → String) (env : UploadEnv) (db : DB)
    (storage : List String) (caller now newId : Nat) (r : UploadReq)
    (hfresh : (toString caller ++ "/" ++ toString now ++ "_" ++ sanFile r.origName)
      ∉ storage) :
    (env.storeOk = true → env.insertOk = false →
      (fileUpload sanFile mkUrl env db storage caller now newId r).1 = .serverError
      ∧ (fileUpload sanFile mkUrl env db storage caller now newId r).2.1 = db
      ∧ (fileUpload sanFile mkUrl env db storage caller now newId r).2.2 = storage)
    ∧ (env.storeOk = true → env.insertOk = true →
      (fileUpload sanFile mkUrl env db storage caller now newId r).1 = .success
      ∧ ({ id := newId, name := r.origName, size := r.size, format := r.mimetype,
           path := mkUrl (toString caller ++ "/" ++ toString now ++ "_"
             ++ sanFile r.origName),
           storage_path := toString caller ++ "/" ++ toString now ++ "_"
             ++ sanFile r.origName,
           owner_id := caller, folder_id := r.folderId, share_token := none,
           is_public := false, deleted_at := none, created_at := now,
           updated_at := now } : FileRow)
          ∈ (fileUpload sanFile mkUrl env db storage caller now newId r).2.1.files
      ∧ (fileUpload sanFile mkUrl env db storage caller now newId r).2.2
          = storage ++ [toString caller ++ "/" ++ toString now ++ "_"
              ++ sanFile r.origName]) := by
  have hclean : (storage ++ [toString caller ++ "/" ++ toString now ++ "_"
      ++ sanFile r.origName]).filter
      (fun p => p ≠ (toString caller ++ "/" ++ toString now ++ "_"
        ++ sanFile r.origName)) = storage := by
    rw [List.filter_append]
    have h1 : storage.filter (fun p => (p ≠ (toString caller ++ "/" ++ toString now
        ++ "_" ++ sanFile r.origName) : Bool)) = storage := by
      rw [List.filter_eq_self]
      intro a ha
      simp only [decide_eq_true_eq]
      intro heq
      rw [heq] at ha
      exact hfresh ha
    rw [h1]
    simp
  constructor
  · intro hstore hins
    unfold fileUpload
    rw [hstore, if_neg (by simp), hins, if_pos rfl]
    exact ⟨rfl, rfl, hclean⟩
  · intro hstore hins
    unfold fileUpload
    rw [hstore, if_neg (by simp), hins, if_neg (by simp)]
    refine ⟨?_, ?_, ?_⟩
    · cases hg : env.grantOk <;> simp [hg]
    · cases hg : env.grantOk <;> simp [hg]
    · cases hg : env.grantOk <;> simp [hg]

/-- C8 witness: with the store write succeeding and the insert failing on an
empty storage, the upload answers 500 and leaves no object behind. -/
theorem claim8_upload_compensation_witness :
    (fileUpload (fun s => s) (fun s => s) ⟨true, false, false⟩ egDB [] 1 5 11
        ⟨"a.txt", 3, "text/plain", none⟩).1 = .serverError
    ∧ (fileUpload (fun s => s) (fun s => s) ⟨true, false, false⟩ egDB [] 1 5 11
        ⟨"a.txt", 3, "text/plain", none⟩).2.2 = [] := by
  have h := claim8_upload_compensation (fun s => s) (fun s => s) ⟨true, false, false⟩
    egDB [] 1 5 11 ⟨"a.txt", 3, "text/plain", none⟩ (by decide)
  exact ⟨(h.1 rfl rfl).1, (h.1 rfl rfl).2.2⟩

/-- C10.  Every row-mutating route (rename, soft-delete, restore, permanent
delete, share issue, share revoke) filters its effect by
`owner_id = caller`: when no row with the targeted id is owned by the
caller — even if the caller holds an owner-level grant and so passes the
permission middleware — the request does not succeed and every table (and
the storage, for purge) is left exactly unchanged. -/
theorem claim10_owner_filter_frame
    (sanQ sanF sanI : String → String) (db : DB) (storage : List String)
    (caller fileId folderId : Nat) (nm token : String) (now : Nat)
    (hfiles : ∀ g ∈ db.files, g.id = fileId → g.owner_id ≠ caller)
    (hfolders : ∀ g ∈ db.folders, g.id = folderId → g.owner_id ≠ caller) :
    ((fileRename sanQ sanF db caller fileId nm now).1 ≠ .success
      ∧ (fileRename sanQ sanF db caller fileId nm now).2 = db)
    ∧ ((fileSoftDelete db caller fileId now).1 ≠ .success
      ∧ (fileSoftDelete db caller fileId now).2 = db)
    ∧ ((fileRestore db caller fileId now).1 ≠ .success
      ∧ (fileRestore db caller fileId now).2 = db)
    ∧ filePurge db storage caller fileId = (.notFound, db, storage)
    ∧ ((fileShareIssue db caller fileId token now).1 ≠ .success
      ∧ (fileShareIssue db caller fileId token now).2 = db)
    ∧ ((fileShareRevoke db caller fileId now).1 ≠ .success
      ∧ (fileShareRevoke db caller fileId now).2 = db)
    ∧ ((folderRename sanQ sanI db caller folderId nm now).1 ≠ .success
      ∧ (folderRename sanQ sanI db caller folderId nm now).2 = db)
    ∧ ((folderSoftDelete db caller folderId now).1 ≠ .success
      ∧ (folderSoftDelete db caller folderId now).2 = db)
    ∧ ((folderRestore db caller folderId now).1 ≠ .success
      ∧ (folderRestore db caller folderId now).2 = db) :=
  ⟨fileRename_frame hfiles, fileSoftDelete_frame hfiles, fileRestore_frame hfiles,
    filePurge_frame hfiles, fileShareIssue_frame hfiles, fileShareRevoke_frame hfiles,
    folderRename_frame hfolders, folderSoftDelete_frame hfolders,
    folderRestore_frame hfolders⟩

/-- C10 witness: user 2 (edit grantee, not owner) fails to soft-delete or
purge file 10 of the sample state, which stays untouched. -/
theorem claim10_owner_filter_frame_witness :
    (fileSoftDelete egDB 2 10 7).2 = egDB
    ∧ filePurge egDB [] 2 10 = (.notFound, egDB, []) := by
  have h := claim10_owner_filter_frame (fun s => s) (fun s => s) (fun s => s)
    egDB [] 2 10 20 "x" "tk" 7 (by decide) (by decide)
  exact ⟨h.2.1.2, h.2.2.2.1⟩

theorem range_uuidv4Bytes_eq : Set.range uuidv4Bytes = Set.range uuidv4OfEntropy := by
  apply Set.Subset.antisymm
  · rintro g ⟨r, rfl⟩
    refine ⟨⟨⟨(r 6).val % 16, Nat.mod_lt _ (by norm_num)⟩,
      ⟨(r 8).val % 64, Nat.mod_lt _ (by norm_num)⟩, fun j => r j.1⟩, ?_⟩
    funext i
    by_cases h6 : i = (6 : Fin 16)
    · subst h6
      simp [uuidv4OfEntropy, uuidv4Bytes]
    · by_cases h8 : i = (8 : Fin 16)
      · subst h8
        simp [uuidv4OfEntropy, uuidv4Bytes, h6]
      · simp [uuidv4OfEntropy, uuidv4Bytes, h6, h8]
  · rintro g ⟨e, rfl⟩
    refine ⟨uuidv4OfEntropy e, ?_⟩
    funext i
    by_cases h6 : i = (6 : Fin 16)
    · subst h6
      have ha := e.1.isLt
      simp [uuidv4OfEntropy, uuidv4Bytes]
      omega
    · by_cases h8 : i = (8 : Fin 16)
      · subst h8
        have hb := e.2.1.isLt
        simp [uuidv4OfEntropy, uuidv4Bytes, h6]
        omega
      · simp [uuidv4OfEntropy, uuidv4Bytes, h6, h8]

theorem uuidv4OfEntropy_injective : Function.Injective uuidv4OfEntropy := by
  rintro ⟨a, b, f⟩ ⟨a2, b2, f2⟩ h
  have h86 : (8 : Fin 16) ≠ (6 : Fin 16) := by decide
  have h6 := congrFun h (6 : Fin 16)
  have h8 := congrFun h (8 : Fin 16)
  simp only [uuidv4OfEntropy, dif_pos] at h6
  simp only [uuidv4OfEntropy, dif_neg h86, dif_pos] at h8
  have haa : a = a2 := by
    have := congrArg Fin.val h6
    simp at this
    exact Fin.ext this
  have hbb : b = b2 := by
    have := congrArg Fin.val h8
    simp at this
    exact Fin.ext this
  have hff : f = f2 := by
    funext j
    have hj := congrFun h j.1
    have hj6 : ¬j.1 = (6 : Fin 16) := j.2.1
    have hj8 : ¬j.1 = (8 : Fin 16) := j.2.2
    rw [uuidv4OfEntropy, uuidv4OfEntropy, dif_neg hj6, dif_neg hj6,
      dif_neg hj8, dif_neg hj8] at hj
    simpa using hj
  rw [haa, hbb, hff]

theorem card_range_uuidv4Bytes : Nat.card (Set.range uuidv4Bytes) = 2 ^ 122 := by
  rw [range_uuidv4Bytes_eq, Nat.card_range_of_injective uuidv4OfEntropy_injective,
    Nat.card_eq_fintype_card]
  have hsub : Fintype.card {i : Fin 16 // ¬i = 6 ∧ ¬i = 8} = 14 := by decide
  rw [Fintype.card_prod, Fintype.card_prod, Fintype.card_fun, hsub,
    Fintype.card_fin, Fintype.card_fin, Fintype.card_fin]
  norm_num

/-- C4 counterexample: the share-token generator is `uuidv4`, whose output
space — 16 random bytes with the version nibble and the variant bits
forced — holds exactly 2^122 values, strictly fewer than the 2^128 the
claim requires. -/
theorem claim4_token_entropy_cex : Nat.card (Set.range uuidv4Bytes) < 2 ^ 128 := by
  rw [card_range_uuidv4Bytes]
  norm_num

/-- C4 amended.  The share token is drawn from a cryptographically secure
source with 122 bits of entropy: the generator's output space has exactly
2^122 distinct values and is injectively determined by the 122 free random
bits (low nibble of byte 6, low six bits of byte 8, and the fourteen
untouched bytes). -/
theorem claim4_token_entropy_amended :
    Nat.card (Set.range uuidv4Bytes) = 2 ^ 122
    ∧ Set.range uuidv4Bytes = Set.range uuidv4OfEntropy
    ∧ Function.Injective uuidv4OfEntropy :=
  ⟨card_range_uuidv4Bytes, range_uuidv4Bytes_eq, uuidv4OfEntropy_injective⟩

theorem permLevel_in_levels (l : PermLevel) :
    (l == PermLevel.view || l == PermLevel.edit || l == PermLevel.owner) = true := by
  cases l <;> rfl

theorem mem_userFiles {db : DB} {uid i : Nat} :
    i ∈ userFiles db uid ↔
      ∃ f ∈ db.files, f.id = i ∧ f.deleted_at = none
        ∧ (f.owner_id = uid
           ∨ ∃ p ∈ db.file_permissions, p.file_id = f.id ∧ p.user_id = uid) := by
  unfold userFiles fileJoinRows
  rw [List.mem_dedup, List.mem_map]
  constructor
  · rintro ⟨r, hr, hid⟩
    rw [List.mem_filter] at hr
    obtain ⟨hrj, hcond⟩ := hr
    rw [List.mem_flatMap] at hrj
    obtain ⟨f, hf, hrf⟩ := hrj
    simp only [Bool.and_eq_true, Bool.or_eq_true, beq_iff_eq] at hcond
    cases hps : db.file_permissions.filter
        (fun p => p.file_id == f.id && p.user_id == uid) with
    | nil =>
      rw [hps] at hrf
      have hrv : r = (f, none) := by simpa using hrf
      subst hrv
      refine ⟨f, hf, hid, hcond.1, ?_⟩
      rcases hcond.2 with h | h
      · exact Or.inl h
      · simp at h
    | cons p0 t =>
      rw [hps] at hrf
      have hrf2 : r ∈ (p0 :: t).map (fun p => (f, some p)) := hrf
      rw [List.mem_map] at hrf2
      obtain ⟨p, hp, hrp⟩ := hrf2
      have hpf : p ∈ db.file_permissions.filter
          (fun p2 => p2.file_id == f.id && p2.user_id == uid) := by
        rw [hps]; exact hp
      rw [List.mem_filter] at hpf
      have hpc := hpf.2
      simp only [Bool.and_eq_true, beq_iff_eq] at hpc
      subst hrp
      exact ⟨f, hf, hid, hcond.1, Or.inr ⟨p, hpf.1, hpc.1, hpc.2⟩⟩
  · rintro ⟨f, hf, hid, hdel, hscope⟩
    cases hps : db.file_permissions.filter
        (fun p => p.file_id == f.id && p.user_id == uid) with
    | nil =>
      rcases hscope with howner | ⟨p, hp, hpid, hpu⟩
      · refine ⟨(f, none), ?_, hid⟩
        rw [List.mem_filter]
        refine ⟨?_, by simp [hdel, howner]⟩
        rw [List.mem_flatMap]
        exact ⟨f, hf, by rw [hps]; simp⟩
      · exfalso
        have hpf : p ∈ db.file_permissions.filter
            (fun p2 => p2.file_id == f.id && p2.user_id == uid) :=
          List.mem_filter.mpr ⟨hp, by simp [hpid, hpu]⟩
        rw [hps] at hpf
        simp at hpf
    | cons p0 t =>
      rcases hscope with howner | ⟨p, hp, hpid, hpu⟩
      · refine ⟨(f, some p0), ?_, hid⟩
        rw [List.mem_filter]
        refine ⟨?_, by simp [hdel, howner]⟩
        rw [List.mem_flatMap]
        refine ⟨f, hf, ?_⟩
        rw [hps]
        exact List.mem_map.mpr ⟨p0, List.mem_cons_self p0 t, rfl⟩
      · have hpf : p ∈ db.file_permissions.filter
            (fun p2 => p2.file_id == f.id && p2.user_id == uid) :=
          List.mem_filter.mpr ⟨hp, by simp [hpid, hpu]⟩
        refine ⟨(f, some p), ?_, hid⟩
        rw [List.mem_filter]
        refine ⟨?_, by simp [hdel]⟩
        rw [List.mem_flatMap]
        refine ⟨f, hf, ?_⟩
        rw [hps] at hpf ⊢
        exact List.mem_map.mpr ⟨p, hpf, rfl⟩

theorem mem_searchFilesRanked {R : Type} [LinearOrder R]
    {tsMatch : String → String → Bool} {tsRank : String → String → R}
    {db : DB} {q : String} {uid : Nat} {row : FileSearchRow R}
    (hids : ∀ f ∈ db.files, ∀ g ∈ db.files, f.id = g.id → f = g) :
    row ∈ searchFilesRanked tsMatch tsRank db q uid ↔
      ∃ f ∈ db.files, f.deleted_at = none
        ∧ (f.owner_id = uid
           ∨ ∃ p ∈ db.file_permissions, p.file_id = f.id ∧ p.user_id = uid)
        ∧ tsMatch q f.name = true ∧ row = projectFile tsRank q f := by
  unfold searchFilesRanked
  rw [List.mem_insertionSort, List.mem_map]
  constructor
  · rintro ⟨f, hf, hrow⟩
    rw [List.mem_filter] at hf
    obtain ⟨hfm, hcond⟩ := hf
    simp only [Bool.and_eq_true] at hcond
    have hcontains : f.id ∈ userFiles db uid := by
      have := hcond.1
      simpa [List.contains] using this
    obtain ⟨f2, hf2, hfid2, hdel2, hscope2⟩ := mem_userFiles.mp hcontains
    have hf2f : f2 = f := hids f2 hf2 f hfm hfid2
    subst hf2f
    exact ⟨f2, hfm, hdel2, hscope2, hcond.2, hrow.symm⟩
  · rintro ⟨f, hfm, hdel, hscope, hmatch, hrow⟩
    refine ⟨f, ?_, hrow.symm⟩
    rw [List.mem_filter]
    refine ⟨hfm, ?_⟩
    simp only [Bool.and_eq_true]
    refine ⟨?_, hmatch⟩
    have hmem : f.id ∈ userFiles db uid := mem_userFiles.mpr ⟨f, hfm, rfl, hdel, hscope⟩
    simpa [List.contains] using hmem

theorem mem_searchFoldersRanked {R : Type} [LinearOrder R]
    {tsMatch : String → String → Bool} {tsRank : String → String → R}
    {db : DB} {q : String} {uid : Nat} {row : FolderSearchRow R} :
    row ∈ searchFoldersRanked tsMatch tsRank db q uid ↔
      ∃ fo ∈ db.folders, fo.deleted_at = none
        ∧ (fo.owner_id = uid
           ∨ ∃ p ∈ db.folder_permissions, p.folder_id = fo.id ∧ p.user_id = uid)
        ∧ tsMatch q fo.name = true ∧ row = projectFolder tsRank q fo := by
  unfold searchFoldersRanked folderJoinRows
  rw [List.mem_insertionSort, List.mem_map]
  constructor
  · rintro ⟨r, hr, hrow⟩
    rw [List.mem_filter] at hr
    obtain ⟨hrj, hcond⟩ := hr
    rw [List.mem_flatMap] at hrj
    obtain ⟨fo, hfo, hrf⟩ := hrj
    unfold folderSearchPred at hcond
    simp only [Bool.and_eq_true, Bool.or_eq_true, beq_iff_eq] at hcond
    cases hps : db.folder_permissions.filter (fun p => p.folder_id == fo.id) with
    | nil =>
      rw [hps] at hrf
      have hrv : r = (fo, none) := by simpa using hrf
      subst hrv
      refine ⟨fo, hfo, hcond.1.1, ?_, hcond.2, hrow.symm⟩
      rcases hcond.1.2 with h | h
      · exact Or.inl h
      · simp at h
    | cons p0 t =>
      rw [hps] at hrf
      have hrf2 : r ∈ (p0 :: t).map (fun p => (fo, some p)) := hrf
      rw [List.mem_map] at hrf2
      obtain ⟨p, hp, hrp⟩ := hrf2
      have hpf : p ∈ db.folder_permissions.filter (fun p2 => p2.folder_id == fo.id) := by
        rw [hps]; exact hp
      rw [List.mem_filter] at hpf
      subst hrp
      refine ⟨fo, hfo, hcond.1.1, ?_, hcond.2, hrow.symm⟩
      rcases hcond.1.2 with h | h
      · exact Or.inl h
      · simp only [Bool.and_eq_true, beq_iff_eq] at h
        exact Or.inr ⟨p, hpf.1, by simpa using hpf.2, h.1⟩
  · rintro ⟨fo, hfo, hdel, hscope, hmatch, hrow⟩
    cases hps : db.folder_permissions.filter (fun p => p.folder_id == fo.id) with
    | nil =>
      rcases hscope with howner | ⟨p, hp, hpid, hpu⟩
      · refine ⟨(fo, none), ?_, hrow.symm⟩
        rw [List.mem_filter]
        refine ⟨?_, by unfold folderSearchPred; simp [hdel, howner, hmatch]⟩
        rw [List.mem_flatMap]
        exact ⟨fo, hfo, by rw [hps]; simp⟩
      · exfalso
        have hpf : p ∈ db.folder_permissions.filter (fun p2 => p2.folder_id == fo.id) :=
          List.mem_filter.mpr ⟨hp, by simp [hpid]⟩
        rw [hps] at hpf
        simp at hpf
    | cons p0 t =>
      rcases hscope with howner | ⟨p, hp, hpid, hpu⟩
      · refine ⟨(fo, some p0), ?_, hrow.symm⟩
        rw [List.mem_filter]
        refine ⟨?_, by unfold folderSearchPred; simp [hdel, howner, hmatch]⟩
        rw [List.mem_flatMap]
        refine ⟨fo, hfo, ?_⟩
        rw [hps]
        exact List.mem_map.mpr ⟨p0, List.mem_cons_self p0 t, rfl⟩
      · have hpf : p ∈ db.folder_permissions.filter (fun p2 => p2.folder_id == fo.id) :=
          List.mem_filter.mpr ⟨hp, by simp [hpid]⟩
        refine ⟨(fo, some p), ?_, hrow.symm⟩
        rw [List.mem_filter]
        refine ⟨?_, by
          unfold folderSearchPred
          simp [hdel, hmatch, hpu, permLevel_in_levels]⟩
        rw [List.mem_flatMap]
        refine ⟨fo, hfo, ?_⟩
        rw [hps] at hpf ⊢
        exact List.mem_map.mpr ⟨p, hpf, rfl⟩

/-- C9 (code bug).  Evaluated at the failing input — caller 1 owning the
active file 10 named "a.txt" and the active folder 20 named "docs", with a
query every name matches — each call to the paginated search functions
raises plpgsql's ambiguous `user_id` error, the route swallows the error
into empty result lists, and so neither the in-scope matching file nor the
folder is returned, although the functions' bodies under the parameter
reading of `user_id` would have returned exactly them: the claim states
the intended behavior and the SQL's unqualified `user_id` is the slip. -/
theorem claim9_search_ambiguous_bug :
    searchFilesPaginatedCall (R := Nat) (fun _ _ => true) (fun _ n => n.length)
        egDB "a" 1 20 0
      = Except.error "column reference user_id is ambiguous"
    ∧ searchFoldersPaginatedCall (R := Nat) (fun _ _ => true) (fun _ n => n.length)
        egDB "a" 1 20 0
      = Except.error "column reference user_id is ambiguous"
    ∧ searchBasicFiles (R := Nat) (fun _ _ => true) (fun _ n => n.length)
        egDB "a" 1 20 0 = []
    ∧ searchBasicFolders (R := Nat) (fun _ _ => true) (fun _ n => n.length)
        egDB "a" 1 20 0 = []
    ∧ egFile ∈ egDB.files ∧ egFile.deleted_at = none ∧ egFile.owner_id = 1
    ∧ projectFile (fun _ n => n.length) "a" egFile
        ∈ searchFilesPaginated (fun _ _ => true) (fun _ n => n.length) egDB "a" 1 20 0
    ∧ projectFolder (fun _ n => n.length) "a" egFolder
        ∈ searchFoldersPaginated (fun _ _ => true) (fun _ n => n.length)
            egDB "a" 1 20 0 := by
  refine ⟨rfl, rfl, rfl, rfl, ?_⟩
  decide
